import Mathlib

/-!
Verification of the rmw_dds_common support library against its specification.

The development shallowly embeds the two components the claims are about:

* the QoS negotiation engine of `src/rmw_dds_common/src/qos.cpp`
  (`qos_profile_check_compatible`, `qos_profile_get_best_available_for_subscription`,
  `qos_profile_get_best_available_for_publisher`, and the type-hash user-data codec);
* the graph cache of `graph_cache.cpp` (`add_writer` / `add_reader` /
  `remove_writer` / `remove_reader`, `add_participant`, `remove_participant`,
  `update_participant_entities`, `add_node` / `remove_node`,
  `associate_*` / `dissociate_*`, the endpoint reverse lookup and the
  by-node introspection queries).

Modelling conventions:

* machine integers (`uint64_t` seconds/nanoseconds, sizes) are `Nat`; none of
  the verified code paths overflow or wrap;
* `std::map` is modelled as an association list; the sorted iteration order of
  `std::map` is not modelled (none of the claims depend on it);
* the C++ mutex is dropped (all claims are about the sequential semantics of
  one operation at a time);
* the `on_change_callback_` function object is modelled by a `hasCallback`
  flag plus an invocation counter `callbackCount`, which is the only
  observable of the callback the claims mention;
* the gid ↔ message conversions (`convert_gid_to_msg` / `convert_msg_to_gid`)
  are plain `memcpy`s of the byte array and are modelled as the identity;
* fallible C functions are modelled with `Option` / `Except`; a failed
  C `assert` is modelled as `Option.none`.
-/

set_option autoImplicit false

namespace RmwDdsCommon

/-- Duration as in `rmw_time_t`: seconds and nanoseconds, both unsigned. -/
structure RmwTime where
  sec : Nat
  nsec : Nat
deriving DecidableEq, Repr

/-- Lexicographic strict order on durations, as `operator<(rmw_time_t, rmw_time_t)`
in qos.cpp (sec first, then nsec). -/
def timeLt (t1 t2 : RmwTime) : Prop :=
  t1.sec < t2.sec ∨ (t1.sec = t2.sec ∧ t1.nsec < t2.nsec)

instance (t1 t2 : RmwTime) : Decidable (timeLt t1 t2) := by
  unfold timeLt; infer_instance

/-- Value of `RMW_QOS_DEADLINE_DEFAULT` (= `RMW_DURATION_UNSPECIFIED` = 0s 0ns). -/
def deadlineDefault : RmwTime := ⟨0, 0⟩

/-- Value of `RMW_QOS_DEADLINE_BEST_AVAILABLE`. -/
def deadlineBestAvailable : RmwTime := ⟨9223372036, 854775806⟩

/-- Value of `RMW_QOS_LIVELINESS_LEASE_DURATION_DEFAULT`. -/
def livelinessLeaseDurationDefault : RmwTime := ⟨0, 0⟩

/-- Value of `RMW_QOS_LIVELINESS_LEASE_DURATION_BEST_AVAILABLE`. -/
def livelinessLeaseDurationBestAvailable : RmwTime := ⟨9223372036, 854775806⟩

/-- Value of `RMW_DURATION_INFINITE`. -/
def durationInfinite : RmwTime := ⟨9223372036, 854775807⟩

/-- The `rmw_qos_reliability_policy_t` enumeration. -/
inductive ReliabilityPolicy
  | systemDefault
  | reliable
  | bestEffort
  | unknown
  | bestAvailable
deriving DecidableEq, Repr

/-- The `rmw_qos_durability_policy_t` enumeration. -/
inductive DurabilityPolicy
  | systemDefault
  | transientLocal
  | volatile
  | unknown
  | bestAvailable
deriving DecidableEq, Repr

/-- The `rmw_qos_liveliness_policy_t` enumeration (including the deprecated
manual-by-node value, which the verified code never tests for). -/
inductive LivelinessPolicy
  | systemDefault
  | automatic
  | manualByNode
  | manualByTopic
  | unknown
  | bestAvailable
deriving DecidableEq, Repr

/-- The `rmw_qos_history_policy_t` enumeration. -/
inductive HistoryPolicy
  | systemDefault
  | keepLast
  | keepAll
  | unknown
deriving DecidableEq, Repr

/-- The `rmw_qos_profile_t` policy bundle. -/
structure QoSProfile where
  history : HistoryPolicy
  depth : Nat
  reliability : ReliabilityPolicy
  durability : DurabilityPolicy
  deadline : RmwTime
  lifespan : RmwTime
  liveliness : LivelinessPolicy
  livelinessLeaseDuration : RmwTime
  avoidRosNamespaceConventions : Bool
deriving DecidableEq, Repr

/-- The `rmw_qos_compatibility_type_t` enumeration. -/
inductive Compatibility
  | ok
  | warning
  | error
deriving DecidableEq, Repr

/-- Error phase of `qos_profile_check_compatible` (qos.cpp lines 195-299):
`*compatibility` starts at OK and each of the seven definite-incompatibility
rows overwrites it with ERROR. -/
def errorVerdict (pub sub : QoSProfile) : Compatibility :=
  let c := Compatibility.ok
  let c := if pub.reliability = .bestEffort ∧ sub.reliability = .reliable then .error else c
  let c := if pub.durability = .volatile ∧ sub.durability = .transientLocal then .error else c
  let c := if pub.deadline = deadlineDefault ∧ sub.deadline ≠ deadlineDefault then .error else c
  let c := if pub.deadline ≠ deadlineDefault ∧ sub.deadline ≠ deadlineDefault ∧
      timeLt sub.deadline pub.deadline then .error else c
  let c := if pub.liveliness = .automatic ∧ sub.liveliness = .manualByTopic then .error else c
  let c := if pub.livelinessLeaseDuration = livelinessLeaseDurationDefault ∧
      sub.livelinessLeaseDuration ≠ livelinessLeaseDurationDefault then .error else c
  let c := if pub.livelinessLeaseDuration ≠ livelinessLeaseDurationDefault ∧
      sub.livelinessLeaseDuration ≠ livelinessLeaseDurationDefault ∧
      timeLt sub.livelinessLeaseDuration pub.livelinessLeaseDuration then .error else c
  c

/-- Reliability value that the warning phase treats as not concretely known
(`RMW_QOS_POLICY_RELIABILITY_SYSTEM_DEFAULT` or `..._UNKNOWN`). -/
def reliabilityUnknown (r : ReliabilityPolicy) : Prop :=
  r = .systemDefault ∨ r = .unknown

instance (r : ReliabilityPolicy) : Decidable (reliabilityUnknown r) := by
  unfold reliabilityUnknown; infer_instance

/-- Durability value that the warning phase treats as not concretely known. -/
def durabilityUnknown (d : DurabilityPolicy) : Prop :=
  d = .systemDefault ∨ d = .unknown

instance (d : DurabilityPolicy) : Decidable (durabilityUnknown d) := by
  unfold durabilityUnknown; infer_instance

/-- Liveliness value that the warning phase treats as not concretely known. -/
def livelinessUnknown (l : LivelinessPolicy) : Prop :=
  l = .systemDefault ∨ l = .unknown

instance (l : LivelinessPolicy) : Decidable (livelinessUnknown l) := by
  unfold livelinessUnknown; infer_instance

/-- Warning phase of `qos_profile_check_compatible` (qos.cpp lines 302-477),
which runs only when the error phase left the verdict at OK: three independent
if / else-if chains (reliability, durability, liveliness), each of which may
overwrite the verdict with WARNING. -/
def warningVerdict (pub sub : QoSProfile) : Compatibility :=
  let c := Compatibility.ok
  let c := if reliabilityUnknown pub.reliability ∧ reliabilityUnknown sub.reliability then .warning
    else if reliabilityUnknown pub.reliability ∧ sub.reliability = .reliable then .warning
    else if pub.reliability = .bestEffort ∧ reliabilityUnknown sub.reliability then .warning
    else c
  let c := if durabilityUnknown pub.durability ∧ durabilityUnknown sub.durability then .warning
    else if durabilityUnknown pub.durability ∧ sub.durability = .transientLocal then .warning
    else if pub.durability = .volatile ∧ durabilityUnknown sub.durability then .warning
    else c
  let c := if livelinessUnknown pub.liveliness ∧ livelinessUnknown sub.liveliness then .warning
    else if livelinessUnknown pub.liveliness ∧ sub.liveliness = .manualByTopic then .warning
    else if pub.liveliness = .automatic ∧ livelinessUnknown sub.liveliness then .warning
    else c
  c

/-- Verdict computed by `qos_profile_check_compatible` (qos.cpp lines 172-480)
for valid output arguments: the error phase, then — only if the verdict is
still OK — the warning phase. The reason-buffer side effects and the
null-argument `RMW_RET_INVALID_ARGUMENT` paths are not part of the verdict. -/
def checkCompatibleVerdict (pub sub : QoSProfile) : Compatibility :=
  let c := errorVerdict pub sub
  if c = .ok then warningVerdict pub sub else c

/-- The seven ERROR rows of the decision table (spec §4.2), stated directly. -/
def anyErrorRow (pub sub : QoSProfile) : Prop :=
  (pub.reliability = .bestEffort ∧ sub.reliability = .reliable) ∨
  (pub.durability = .volatile ∧ sub.durability = .transientLocal) ∨
  (pub.deadline = deadlineDefault ∧ sub.deadline ≠ deadlineDefault) ∨
  (pub.deadline ≠ deadlineDefault ∧ sub.deadline ≠ deadlineDefault ∧
    timeLt sub.deadline pub.deadline) ∨
  (pub.liveliness = .automatic ∧ sub.liveliness = .manualByTopic) ∨
  (pub.livelinessLeaseDuration = livelinessLeaseDurationDefault ∧
    sub.livelinessLeaseDuration ≠ livelinessLeaseDurationDefault) ∨
  (pub.livelinessLeaseDuration ≠ livelinessLeaseDurationDefault ∧
    sub.livelinessLeaseDuration ≠ livelinessLeaseDurationDefault ∧
    timeLt sub.livelinessLeaseDuration pub.livelinessLeaseDuration)

instance (pub sub : QoSProfile) : Decidable (anyErrorRow pub sub) := by
  unfold anyErrorRow; infer_instance

/-- Profile whose reliability, durability and liveliness are concrete in the
sense of spec §4.2: neither SYSTEM_DEFAULT nor UNKNOWN (the values the warning
rows are about). -/
def concreteProfile (q : QoSProfile) : Prop :=
  ¬ reliabilityUnknown q.reliability ∧
  ¬ durabilityUnknown q.durability ∧
  ¬ livelinessUnknown q.liveliness

instance (q : QoSProfile) : Decidable (concreteProfile q) := by
  unfold concreteProfile; infer_instance

/-- Loop state of `qos_profile_get_best_available_for_subscription`
(qos.cpp lines 512-518). -/
structure SubScanState where
  numberOfReliable : Nat
  numberOfTransientLocal : Nat
  numberOfManualByTopic : Nat
  useDefaultDeadline : Bool
  largestDeadline : RmwTime
  useDefaultLeaseDuration : Bool
  largestLeaseDuration : RmwTime
deriving DecidableEq, Repr

/-- Initial loop state of the subscription scan. -/
def subScanInit : SubScanState :=
  { numberOfReliable := 0
    numberOfTransientLocal := 0
    numberOfManualByTopic := 0
    useDefaultDeadline := true
    largestDeadline := ⟨0, 0⟩
    useDefaultLeaseDuration := true
    largestLeaseDuration := ⟨0, 0⟩ }

/-- One iteration of the publisher-info loop of
`qos_profile_get_best_available_for_subscription` (qos.cpp lines 522-545). -/
def subScanStep (s : SubScanState) (profile : QoSProfile) : SubScanState :=
  let s := if profile.reliability = .reliable then
    { s with numberOfReliable := s.numberOfReliable + 1 } else s
  let s := if profile.durability = .transientLocal then
    { s with numberOfTransientLocal := s.numberOfTransientLocal + 1 } else s
  let s := if profile.liveliness = .manualByTopic then
    { s with numberOfManualByTopic := s.numberOfManualByTopic + 1 } else s
  let s := if profile.deadline ≠ deadlineDefault then
    (let s := { s with useDefaultDeadline := false }
     if timeLt s.largestDeadline profile.deadline then
       { s with largestDeadline := profile.deadline } else s)
    else s
  let s := if profile.livelinessLeaseDuration ≠ livelinessLeaseDurationDefault then
    (let s := { s with useDefaultLeaseDuration := false }
     if timeLt s.largestLeaseDuration profile.livelinessLeaseDuration then
       { s with largestLeaseDuration := profile.livelinessLeaseDuration } else s)
    else s
  s

/-- Embedding of `qos_profile_get_best_available_for_subscription`
(qos.cpp lines 489-592) on the happy path (both arguments non-null): the
publisher array is the list of the publishers' QoS profiles (the only field
the function reads), and the updated subscription profile is returned. -/
def qosProfileGetBestAvailableForSubscription
    (publishersInfo : List QoSProfile) (subscriptionProfile : QoSProfile) : QoSProfile :=
  let s := publishersInfo.foldl subScanStep subScanInit
  let p := subscriptionProfile
  let p := if p.reliability = .bestAvailable then
    (if s.numberOfReliable = publishersInfo.length then
      { p with reliability := .reliable } else { p with reliability := .bestEffort })
    else p
  let p := if p.durability = .bestAvailable then
    (if s.numberOfTransientLocal = publishersInfo.length then
      { p with durability := .transientLocal } else { p with durability := .volatile })
    else p
  let p := if p.liveliness = .bestAvailable then
    (if s.numberOfManualByTopic = publishersInfo.length then
      { p with liveliness := .manualByTopic } else { p with liveliness := .automatic })
    else p
  let p := if p.deadline = deadlineBestAvailable then
    (if s.useDefaultDeadline then
      { p with deadline := deadlineDefault } else { p with deadline := s.largestDeadline })
    else p
  let p := if p.livelinessLeaseDuration = livelinessLeaseDurationBestAvailable then
    (if s.useDefaultLeaseDuration then
      { p with livelinessLeaseDuration := livelinessLeaseDurationDefault }
     else { p with livelinessLeaseDuration := s.largestLeaseDuration })
    else p
  p

/-- Loop state of `qos_profile_get_best_available_for_publisher`
(qos.cpp lines 638-642). -/
structure PubScanState where
  useManualByTopic : Bool
  useDefaultDeadline : Bool
  smallestDeadline : RmwTime
  useDefaultLeaseDuration : Bool
  smallestLeaseDuration : RmwTime
deriving DecidableEq, Repr

/-- Initial loop state of the publisher scan: the smallest-so-far durations
start at `RMW_DURATION_INFINITE`. -/
def pubScanInit : PubScanState :=
  { useManualByTopic := false
    useDefaultDeadline := true
    smallestDeadline := durationInfinite
    useDefaultLeaseDuration := true
    smallestLeaseDuration := durationInfinite }

/-- One iteration of the subscription-info loop of
`qos_profile_get_best_available_for_publisher` (qos.cpp lines 643-660). -/
def pubScanStep (s : PubScanState) (profile : QoSProfile) : PubScanState :=
  let s := if profile.liveliness = .manualByTopic then
    { s with useManualByTopic := true } else s
  let s := if profile.deadline ≠ deadlineDefault then
    (let s := { s with useDefaultDeadline := false }
     if timeLt profile.deadline s.smallestDeadline then
       { s with smallestDeadline := profile.deadline } else s)
    else s
  let s := if profile.livelinessLeaseDuration ≠ livelinessLeaseDurationDefault then
    (let s := { s with useDefaultLeaseDuration := false }
     if timeLt profile.livelinessLeaseDuration s.smallestLeaseDuration then
       { s with smallestLeaseDuration := profile.livelinessLeaseDuration } else s)
    else s
  s

/-- Embedding of `qos_profile_get_best_available_for_publisher`
(qos.cpp lines 605-699) on the happy path: reliability and durability are
upgraded unconditionally, then the subscription scan decides liveliness,
deadline and lease duration. -/
def qosProfileGetBestAvailableForPublisher
    (subscriptionsInfo : List QoSProfile) (publisherProfile : QoSProfile) : QoSProfile :=
  let p := publisherProfile
  let p := if p.reliability = .bestAvailable then { p with reliability := .reliable } else p
  let p := if p.durability = .bestAvailable then { p with durability := .transientLocal } else p
  let s := subscriptionsInfo.foldl pubScanStep pubScanInit
  let p := if p.liveliness = .bestAvailable then
    (if s.useManualByTopic then
      { p with liveliness := .manualByTopic } else { p with liveliness := .automatic })
    else p
  let p := if p.deadline = deadlineBestAvailable then
    (if s.useDefaultDeadline then
      { p with deadline := deadlineDefault } else { p with deadline := s.smallestDeadline })
    else p
  let p := if p.livelinessLeaseDuration = livelinessLeaseDurationBestAvailable then
    (if s.useDefaultLeaseDuration then
      { p with livelinessLeaseDuration := livelinessLeaseDurationDefault }
     else { p with livelinessLeaseDuration := s.smallestLeaseDuration })
    else p
  p

/-- Gid: the fixed-width opaque byte array `rmw_gid_t` (and its wire form
`rmw_dds_common::msg::Gid`); equality is byte-wise (`memcmp`), the
message ↔ native conversion is a `memcpy` and is modelled as the identity. -/
abbrev Gid := List Nat

/-- The `rosidl_type_hash_t` structure: a one-byte version tag and the hash
value bytes (`ROSIDL_TYPE_HASH_SICE` = 32 bytes in practice). -/
structure TypeHash where
  version : Nat
  value : List Nat
deriving DecidableEq, Repr

/-- Value of `rosidl_get_zero_initialized_type_hash()`: version 0
(`ROSIDL_TYPE_HASH_VERSION_UNSET`) and an all-zero value. -/
def zeroTypeHash : TypeHash := ⟨0, List.replicate 32 0⟩

/-- The `EntityInfo` record of graph_cache.hpp. -/
structure EntityInfo where
  topicName : String
  topicType : String
  topicTypeHash : TypeHash
  participantGid : Gid
  qos : QoSProfile
deriving DecidableEq, Repr

/-- The `rmw_dds_common::msg::NodeEntitiesInfo` message. -/
structure NodeEntitiesInfo where
  nodeNamespace : String
  nodeName : String
  readerGidSeq : List Gid
  writerGidSeq : List Gid
deriving DecidableEq, Repr

/-- The `ParticipantInfo` record of graph_cache.hpp: the node-entities
sequence reported for the participant plus its enclave name. Its default
constructor (used by the `emplace` calls) gives an empty sequence and an
empty enclave. -/
structure ParticipantInfo where
  nodeEntitiesInfoSeq : List NodeEntitiesInfo
  enclave : String
deriving DecidableEq, Repr

/-- The `rmw_dds_common::msg::ParticipantEntitiesInfo` message. -/
structure ParticipantEntitiesInfo where
  gid : Gid
  nodeEntitiesInfoSeq : List NodeEntitiesInfo
deriving DecidableEq, Repr

/-- Association-list model of `std::map`: find the value stored under a key
(`map::find`). -/
def lookupKey {α β : Type} [DecidableEq α] : List (α × β) → α → Option β
  | [], _ => none
  | kv :: rest, k => if kv.1 = k then some kv.2 else lookupKey rest k

/-- Association-list model of `std::map::erase(key)`. -/
def eraseKey {α β : Type} [DecidableEq α] (m : List (α × β)) (k : α) : List (α × β) :=
  m.filter (fun kv => kv.1 ≠ k)

/-- Update the value stored under a key in place (writing through the
iterator returned by `map::find`). -/
def setKey {α β : Type} [DecidableEq α] (m : List (α × β)) (k : α) (f : β → β) :
    List (α × β) :=
  m.map (fun kv => if kv.1 = k then (kv.1, f kv.2) else kv)

/-- Apply a function to the first element of a list satisfying a predicate
(writing through the iterator returned by `std::find_if`). -/
def mapFirst {α : Type} (p : α → Bool) (f : α → α) : List α → List α
  | [] => []
  | x :: xs => if p x then f x :: xs else x :: mapFirst p f xs

/-- Map from endpoint gids to endpoint discovery info (`EntityGidToInfo`). -/
abbrev EntityGidToInfo := List (Gid × EntityInfo)

/-- Map from participant gids to participant discovery info
(`ParticipantToNodesMap`). -/
abbrev ParticipantToNodesMap := List (Gid × ParticipantInfo)

/-- State of a `GraphCache`: the three maps, whether an `on_change_callback_`
is registered, and how many times that callback has been invoked (the
callback itself is opaque; its invocation count is the modelled observable). -/
structure GraphCache where
  dataWriters : EntityGidToInfo
  dataReaders : EntityGidToInfo
  participants : ParticipantToNodesMap
  hasCallback : Bool
  callbackCount : Nat
deriving DecidableEq, Repr

/-- The `GRAPH_CACHE_CALL_ON_CHANGE_CALLBACK_IF` macro: invoke the callback
when one is registered and the condition holds. -/
def callOnChangeCallbackIf (gc : GraphCache) (condition : Bool) : GraphCache :=
  if gc.hasCallback && condition then
    { gc with callbackCount := gc.callbackCount + 1 }
  else gc

/-- Embedding of `GraphCache::add_writer` (graph_cache.cpp lines 81-98):
`map::emplace` inserts only when the gid is absent; the callback fires iff
the insertion happened; the insertion result is returned. -/
def GraphCache.add_writer (gc : GraphCache) (gid : Gid) (topicName typeName : String)
    (typeHash : TypeHash) (participantGid : Gid) (qos : QoSProfile) : GraphCache × Bool :=
  match lookupKey gc.dataWriters gid with
  | some _ => (callOnChangeCallbackIf gc false, false)
  | none =>
    let gc := { gc with
      dataWriters := gc.dataWriters ++ [(gid, ⟨topicName, typeName, typeHash, participantGid, qos⟩)] }
    (callOnChangeCallbackIf gc true, true)

/-- Embedding of `GraphCache::add_reader` (graph_cache.cpp lines 136-154). -/
def GraphCache.add_reader (gc : GraphCache) (gid : Gid) (topicName typeName : String)
    (typeHash : TypeHash) (participantGid : Gid) (qos : QoSProfile) : GraphCache × Bool :=
  match lookupKey gc.dataReaders gid with
  | some _ => (callOnChangeCallbackIf gc false, false)
  | none =>
    let gc := { gc with
      dataReaders := gc.dataReaders ++ [(gid, ⟨topicName, typeName, typeHash, participantGid, qos⟩)] }
    (callOnChangeCallbackIf gc true, true)

/-- Embedding of `GraphCache::add_entity` (graph_cache.cpp lines 193-207). -/
def GraphCache.add_entity (gc : GraphCache) (gid : Gid) (topicName typeName : String)
    (typeHash : TypeHash) (participantGid : Gid) (qos : QoSProfile) (isReader : Bool) :
    GraphCache × Bool :=
  if isReader then gc.add_reader gid topicName typeName typeHash participantGid qos
  else gc.add_writer gid topicName typeName typeHash participantGid qos

/-- Embedding of `GraphCache::remove_writer` (graph_cache.cpp lines 243-255):
erase by key; the callback fires iff something was erased. -/
def GraphCache.remove_writer (gc : GraphCache) (gid : Gid) : GraphCache × Bool :=
  let ret := (lookupKey gc.dataWriters gid).isSome
  let gc := { gc with dataWriters := eraseKey gc.dataWriters gid }
  (callOnChangeCallbackIf gc ret, ret)

/-- Embedding of `GraphCache::remove_reader` (graph_cache.cpp lines 265-277). -/
def GraphCache.remove_reader (gc : GraphCache) (gid : Gid) : GraphCache × Bool :=
  let ret := (lookupKey gc.dataReaders gid).isSome
  let gc := { gc with dataReaders := eraseKey gc.dataReaders gid }
  (callOnChangeCallbackIf gc ret, ret)

/-- Embedding of `GraphCache::remove_entity` (graph_cache.cpp lines 289-296). -/
def GraphCache.remove_entity (gc : GraphCache) (gid : Gid) (isReader : Bool) :
    GraphCache × Bool :=
  if isReader then gc.remove_reader gid else gc.remove_writer gid

/-- Embedding of `GraphCache::update_participant_entities`
(graph_cache.cpp lines 303-327): create the participant entry if absent
(default-constructed, hence empty enclave), replace its node-entities
sequence with the message's wholesale, and invoke the callback
unconditionally. -/
def GraphCache.update_participant_entities (gc : GraphCache)
    (msg : ParticipantEntitiesInfo) : GraphCache :=
  let participants :=
    match lookupKey gc.participants msg.gid with
    | some _ => gc.participants
    | none => gc.participants ++ [(msg.gid, { nodeEntitiesInfoSeq := [], enclave := "" })]
  let participants := setKey participants msg.gid
    (fun pi => { pi with nodeEntitiesInfoSeq := msg.nodeEntitiesInfoSeq })
  callOnChangeCallbackIf { gc with participants := participants } true

/-- Embedding of `GraphCache::remove_participant` (graph_cache.cpp lines
337-349): erase by key; the callback fires iff something was erased. -/
def GraphCache.remove_participant (gc : GraphCache) (participantGid : Gid) :
    GraphCache × Bool :=
  let ret := (lookupKey gc.participants participantGid).isSome
  let gc := { gc with participants := eraseKey gc.participants participantGid }
  (callOnChangeCallbackIf gc ret, ret)

/-- Embedding of `GraphCache::add_participant` (graph_cache.cpp lines
387-412): create the participant entry if absent, overwrite its enclave, and
invoke the callback unconditionally. -/
def GraphCache.add_participant (gc : GraphCache) (participantGid : Gid)
    (enclave : String) : GraphCache :=
  let participants :=
    match lookupKey gc.participants participantGid with
    | some _ => gc.participants
    | none => gc.participants ++ [(participantGid, { nodeEntitiesInfoSeq := [], enclave := "" })]
  let participants := setKey participants participantGid
    (fun pi => { pi with enclave := enclave })
  callOnChangeCallbackIf { gc with participants := participants } true

/-- Predicate used by the node lookups: the node with the requested name and
namespace. -/
def nodeMatches (nodeName nodeNamespace : String) (ni : NodeEntitiesInfo) : Bool :=
  decide (ni.nodeName = nodeName ∧ ni.nodeNamespace = nodeNamespace)

/-- Embedding of `GraphCache::add_node` (graph_cache.cpp lines 421-455):
the `assert(it != participants_.end())` is modelled as the `none` outcome;
on success the fresh node is appended, the callback fires, and the
post-mutation `ParticipantEntitiesInfo` message is returned. -/
def GraphCache.add_node (gc : GraphCache) (participantGid : Gid)
    (nodeName nodeNamespace : String) : Option (GraphCache × ParticipantEntitiesInfo) :=
  match lookupKey gc.participants participantGid with
  | none => none
  | some pi =>
    let newSeq := pi.nodeEntitiesInfoSeq ++
      [{ nodeNamespace := nodeNamespace, nodeName := nodeName,
         readerGidSeq := [], writerGidSeq := [] }]
    let gc := { gc with participants := (setKey gc.participants participantGid
      (fun p => { p with nodeEntitiesInfoSeq := newSeq })) }
    some (callOnChangeCallbackIf gc true, { gid := participantGid, nodeEntitiesInfoSeq := newSeq })

/-- Embedding of `GraphCache::remove_node` (graph_cache.cpp lines 464-499):
both asserts (participant found, node found) are modelled as `none`; on
success the first matching node is erased, the callback fires, and the
post-mutation message is returned. -/
def GraphCache.remove_node (gc : GraphCache) (participantGid : Gid)
    (nodeName nodeNamespace : String) : Option (GraphCache × ParticipantEntitiesInfo) :=
  match lookupKey gc.participants participantGid with
  | none => none
  | some pi =>
    match pi.nodeEntitiesInfoSeq.find? (nodeMatches nodeName nodeNamespace) with
    | none => none
    | some _ =>
      let newSeq := pi.nodeEntitiesInfoSeq.eraseP (nodeMatches nodeName nodeNamespace)
      let gc := { gc with participants := (setKey gc.participants participantGid
        (fun p => { p with nodeEntitiesInfoSeq := newSeq })) }
      some (callOnChangeCallbackIf gc true,
        { gid := participantGid, nodeEntitiesInfoSeq := newSeq })

/-- Embedding of the `__modify_node_info` helper (graph_cache.cpp lines
515-541): look up the participant and the node (both asserts modelled as
`none`), apply the functor to the node, and return the updated map together
with the post-mutation message. -/
def modifyNodeInfo (participantGid : Gid) (nodeName nodeNamespace : String)
    (func : NodeEntitiesInfo → NodeEntitiesInfo) (participantMap : ParticipantToNodesMap) :
    Option (ParticipantToNodesMap × ParticipantEntitiesInfo) :=
  match lookupKey participantMap participantGid with
  | none => none
  | some pi =>
    match pi.nodeEntitiesInfoSeq.find? (nodeMatches nodeName nodeNamespace) with
    | none => none
    | some _ =>
      let newSeq := mapFirst (nodeMatches nodeName nodeNamespace) func pi.nodeEntitiesInfoSeq
      let pm := setKey participantMap participantGid
        (fun p => { p with nodeEntitiesInfoSeq := newSeq })
      some (pm, { gid := participantGid, nodeEntitiesInfoSeq := newSeq })

/-- Embedding of `GraphCache::associate_writer` (graph_cache.cpp lines
553-572): append the writer gid to the node's writer list via
`__modify_node_info`, then invoke the callback unconditionally. -/
def GraphCache.associate_writer (gc : GraphCache) (writerGid participantGid : Gid)
    (nodeName nodeNamespace : String) : Option (GraphCache × ParticipantEntitiesInfo) :=
  match modifyNodeInfo participantGid nodeName nodeNamespace
      (fun info => { info with writerGidSeq := info.writerGidSeq ++ [writerGid] })
      gc.participants with
  | none => none
  | some (pm, msg) =>
    some (callOnChangeCallbackIf { gc with participants := pm } true, msg)

/-- Embedding of `GraphCache::dissociate_writer` (graph_cache.cpp lines
584-611): erase the first occurrence of the writer gid from the node's
writer list if present (a no-op otherwise), then invoke the callback
unconditionally. -/
def GraphCache.dissociate_writer (gc : GraphCache) (writerGid participantGid : Gid)
    (nodeName nodeNamespace : String) : Option (GraphCache × ParticipantEntitiesInfo) :=
  match modifyNodeInfo participantGid nodeName nodeNamespace
      (fun info => { info with
        writerGidSeq := info.writerGidSeq.eraseP (fun g => decide (g = writerGid)) })
      gc.participants with
  | none => none
  | some (pm, msg) =>
    some (callOnChangeCallbackIf { gc with participants := pm } true, msg)

/-- Embedding of `GraphCache::associate_reader` (graph_cache.cpp lines
613-642). -/
def GraphCache.associate_reader (gc : GraphCache) (readerGid participantGid : Gid)
    (nodeName nodeNamespace : String) : Option (GraphCache × ParticipantEntitiesInfo) :=
  match modifyNodeInfo participantGid nodeName nodeNamespace
      (fun info => { info with readerGidSeq := info.readerGidSeq ++ [readerGid] })
      gc.participants with
  | none => none
  | some (pm, msg) =>
    some (callOnChangeCallbackIf { gc with participants := pm } true, msg)

/-- Embedding of `GraphCache::dissociate_reader` (graph_cache.cpp lines
655-689). -/
def GraphCache.dissociate_reader (gc : GraphCache) (readerGid participantGid : Gid)
    (nodeName nodeNamespace : String) : Option (GraphCache × ParticipantEntitiesInfo) :=
  match modifyNodeInfo participantGid nodeName nodeNamespace
      (fun info => { info with
        readerGidSeq := info.readerGidSeq.eraseP (fun g => decide (g = readerGid)) })
      gc.participants with
  | none => none
  | some (pm, msg) =>
    some (callOnChangeCallbackIf { gc with participants := pm } true, msg)

/-- The `EndpointCreator` enumeration of graph_cache.cpp (lines 777-781). -/
inductive EndpointCreator
  | rosNode
  | undiscoveredRosNode
  | bareDdsParticipant
deriving DecidableEq, Repr

/-- Embedding of `__find_name_and_namespace_from_entity_gid`
(graph_cache.cpp lines 794-829): the three-valued reverse lookup from an
endpoint gid to the node that claims it. -/
def findNameAndNamespaceFromEntityGid (participantMap : ParticipantToNodesMap)
    (participantGid entityGid : Gid) (isReader : Bool) :
    String × String × EndpointCreator :=
  match lookupKey participantMap participantGid with
  | none => ("", "", .bareDdsParticipant)
  | some pi =>
    match pi.nodeEntitiesInfoSeq.find? (fun ni =>
        decide (entityGid ∈ (if isReader then ni.readerGidSeq else ni.writerGidSeq))) with
    | some ni => (ni.nodeName, ni.nodeNamespace, .rosNode)
    | none => ("", "", .undiscoveredRosNode)

/-- One entry of the `rmw_topic_endpoint_info_array_t` produced by
`__get_entities_info_by_topic`. -/
structure TopicEndpointInfo where
  nodeName : String
  nodeNamespace : String
  topicType : String
  topicTypeHash : TypeHash
  endpointIsReader : Bool
  gid : Gid
  qos : QoSProfile
deriving DecidableEq, Repr

/-- Embedding of `__get_entities_info_by_topic` (graph_cache.cpp lines
837-971) on the happy path (allocation never fails): one output entry per
entity whose topic matches, with the node name and namespace resolved from
the reverse lookup (placeholder strings for the undiscovered-node and
bare-DDS cases). -/
def getEntitiesInfoByTopic (entities : EntityGidToInfo)
    (participantMap : ParticipantToNodesMap) (topicName : String)
    (demangleType : String → String) (isReader : Bool) : List TopicEndpointInfo :=
  (entities.filter (fun kv => decide (kv.2.topicName = topicName))).map (fun kv =>
    let result := findNameAndNamespaceFromEntityGid participantMap kv.2.participantGid kv.1 isReader
    let names : String × String :=
      match result.2.2 with
      | .rosNode => (result.1, result.2.1)
      | .undiscoveredRosNode => ("_NODE_NAME_UNKNOWN_", "_NODE_NAMESPACE_UNKNOWN_")
      | .bareDdsParticipant => ("_CREATED_BY_BARE_DDS_APP_", "_CREATED_BY_BARE_DDS_APP_")
    { nodeName := names.1
      nodeNamespace := names.2
      topicType := demangleType kv.2.topicType
      topicTypeHash := kv.2.topicTypeHash
      endpointIsReader := isReader
      gid := kv.1
      qos := kv.2.qos })

/-- Embedding of `GraphCache::get_writers_info_by_topic`
(graph_cache.cpp lines 982-992). -/
def GraphCache.get_writers_info_by_topic (gc : GraphCache) (topicName : String)
    (demangleType : String → String) : List TopicEndpointInfo :=
  getEntitiesInfoByTopic gc.dataWriters gc.participants topicName demangleType false

/-- Embedding of `GraphCache::get_readers_info_by_topic`
(graph_cache.cpp lines 1003-1013). -/
def GraphCache.get_readers_info_by_topic (gc : GraphCache) (topicName : String)
    (demangleType : String → String) : List TopicEndpointInfo :=
  getEntitiesInfoByTopic gc.dataReaders gc.participants topicName demangleType true

/-- The status taxonomy `rmw_ret_t`, restricted to the codes the verified
operations return. -/
inductive RmwRet
  | ok
  | invalidArgument
  | badAlloc
  | nodeNameNonExistent
  | error
deriving DecidableEq, Repr

/-- Embedding of `__find_node` (graph_cache.cpp lines 1165-1177): scan the
participants in order and, within each, the node list in order; return the
first node with the requested name and namespace. -/
def findNode (participantMap : ParticipantToNodesMap)
    (nodeName nodeNamespace : String) : Option NodeEntitiesInfo :=
  match participantMap with
  | [] => none
  | kv :: rest =>
    match kv.2.nodeEntitiesInfoSeq.find? (nodeMatches nodeName nodeNamespace) with
    | some ni => some ni
    | none => findNode rest nodeName nodeNamespace

/-- Embedding of `__get_names_and_types_from_gids` (graph_cache.cpp lines
1188-1209). The `std::map<std::string, std::set<std::string>>` content is
modelled as its set of (topic, type) pairs. -/
def namesAndTypesFromGids (entitiesMap : EntityGidToInfo) (gids : List Gid)
    (demangleTopic demangleType : String → String) : Finset (String × String) :=
  gids.foldl (fun topics gid =>
    match lookupKey entitiesMap gid with
    | none => topics
    | some info =>
      let demangledTopicName := demangleTopic info.topicName
      if demangledTopicName = "" then topics
      else insert (demangledTopicName, demangleType info.topicType) topics) ∅

/-- Embedding of `__get_names_and_types_by_node` (graph_cache.cpp lines
1219-1264) on the happy path for valid arguments: a failed node lookup
returns `RMW_RET_NODE_NAME_NON_EXISTENT` before anything is written to the
caller's zero-initialized output (modelled by the `Except.error` carrying no
output), otherwise the result is built from the gids the selector extracts
from the found node. -/
def getNamesAndTypesByNode (participantsMap : ParticipantToNodesMap)
    (entitiesMap : EntityGidToInfo) (nodeName nodeNamespace : String)
    (demangleTopic demangleType : String → String)
    (getEntitiesGids : NodeEntitiesInfo → List Gid) :
    Except RmwRet (Finset (String × String)) :=
  match findNode participantsMap nodeName nodeNamespace with
  | none => .error .nodeNameNonExistent
  | some ni =>
    .ok (namesAndTypesFromGids entitiesMap (getEntitiesGids ni) demangleTopic demangleType)

/-- Embedding of `GraphCache::get_writer_names_and_types_by_node`
(graph_cache.cpp lines 1276-1292), with the `__get_writers_gids` selector. -/
def GraphCache.get_writer_names_and_types_by_node (gc : GraphCache)
    (nodeName nodeNamespace : String) (demangleTopic demangleType : String → String) :
    Except RmwRet (Finset (String × String)) :=
  getNamesAndTypesByNode gc.participants gc.dataWriters nodeName nodeNamespace
    demangleTopic demangleType (fun ni => ni.writerGidSeq)

/-- Embedding of `GraphCache::get_reader_names_and_types_by_node`
(graph_cache.cpp lines 1313-1327), with the `__get_readers_gids` selector. -/
def GraphCache.get_reader_names_and_types_by_node (gc : GraphCache)
    (nodeName nodeNamespace : String) (demangleTopic demangleType : String → String) :
    Except RmwRet (Finset (String × String)) :=
  getNamesAndTypesByNode gc.participants gc.dataReaders nodeName nodeNamespace
    demangleTopic demangleType (fun ni => ni.readerGidSeq)

/-- Lowercase hexadecimal digit for a value below 16: values below ten map
into the decimal digit characters, the rest into the letters from `a`. -/
def toHexDigit (n : Nat) : Char :=
  if n < 10 then Char.ofNat (48 + n) else Char.ofNat (87 + n)

/-- Two lowercase hexadecimal digits for one byte. -/
def encodeHexByte (b : Nat) : List Char := [toHexDigit (b / 16), toHexDigit (b % 16)]

/-- Value of one hexadecimal digit character, lowercase letters only. -/
def hexDigitVal (c : Char) : Option Nat :=
  if '0' ≤ c ∧ c ≤ '9' then some (c.toNat - 48)
  else if 'a' ≤ c ∧ c ≤ 'f' then some (c.toNat - 87)
  else none

/-- Decode a string of hexadecimal digit pairs into bytes; fails on an odd
length or a non-hex character. -/
def decodeHexBytes : List Char → Option (List Nat)
  | [] => some []
  | c1 :: c2 :: rest => do
    let hi ← hexDigitVal c1
    let lo ← hexDigitVal c2
    let bs ← decodeHexBytes rest
    pure ((hi * 16 + lo) :: bs)
  | [_] => none

/-- Value of one decimal digit character. -/
def decDigitVal (c : Char) : Option Nat :=
  if '0' ≤ c ∧ c ≤ '9' then some (c.toNat - 48) else none

/-- Decode a decimal digit string (most significant first), as `strtoul`
does once the digit span has been isolated. -/
def decodeDecimal (cs : List Char) : Option Nat :=
  cs.foldl (fun acc c => acc.bind (fun a => (decDigitVal c).map (fun d => a * 10 + d))) (some 0)

/-- Pad a digit string on the left to width two, as the `%02u` version field
format does. -/
def padTwo (cs : List Char) : List Char := if cs.length < 2 then '0' :: cs else cs

/-- Characters of the character span `c` is in, as a decimal digit test. -/
def isDecDigit (c : Char) : Bool := decide ('0' ≤ c ∧ c ≤ '9')

/-- Modelled from the spec: `rosidl_stringify_type_hash` of rosidl_runtime_c
is not part of this repository; the spec (§4.2, §8 scenario 6) fixes its
output as the canonical `RIHS<version>_<hex value>` string (`RIHS01_...` for
version 1), which is what this model produces — the `RIHS` tag, the
zero-padded two-digit decimal version, an underscore, and the hash value in
lowercase hexadecimal. -/
def stringifyTypeHashChars (h : TypeHash) : List Char :=
  'R' :: 'I' :: 'H' :: 'S' ::
    (padTwo (Nat.toDigits 10 h.version) ++ '_' :: (h.value.map encodeHexByte).flatten)

/-- Modelled from the spec: `rosidl_parse_type_hash_string` of
rosidl_runtime_c is not part of this repository; per the spec it parses the
canonical string produced by stringification back into the structured hash
or fails. The model requires the `RIHS` tag, a non-empty decimal version
span terminated by an underscore (as `strtoul` stops at the first non-digit)
and a hash value of exactly 32 hexadecimal-encoded bytes. -/
def parseTypeHashChars (cs : List Char) : Option TypeHash :=
  if cs.take 4 = ['R', 'I', 'H', 'S'] then
    let rest := cs.drop 4
    let digits := rest.takeWhile isDecDigit
    if digits = [] then none
    else
      match rest.dropWhile isDecDigit with
      | c :: hexPart =>
        if c = '_' then
          match decodeDecimal digits, decodeHexBytes hexPart with
          | some v, some bytes => if bytes.length = 32 then some ⟨v, bytes⟩ else none
          | _, _ => none
        else none
      | [] => none
  else none

/-- Modelled from the spec: the `rmw::impl::cpp::parse_key_value` helper of
the rmw package is not part of this repository; the spec (§6) fixes the user
data format as a byte string of `key=value;` pairs separated by `;`. The
model splits on every semicolon. -/
def splitOnSemicolon : List Char → List (List Char)
  | [] => [[]]
  | c :: rest =>
    if c = ';' then [] :: splitOnSemicolon rest
    else
      match splitOnSemicolon rest with
      | seg :: segs => (c :: seg) :: segs
      | [] => [[c]]

/-- Split one `key=value` segment at its first `=`; segments without an `=`
carry no pair. -/
def splitAtEq : List Char → Option (List Char × List Char)
  | [] => none
  | c :: rest =>
    if c = '=' then some ([], rest)
    else (splitAtEq rest).map (fun p => (c :: p.1, p.2))

/-- Modelled from the spec: the key → value association parsed from the user
data bytes (spec §6, `key=value;` pairs separated by `;`). -/
def parseKeyValue (l : List Char) : List (String × List Char) :=
  (splitOnSemicolon l).filterMap (fun seg => (splitAtEq seg).map (fun p => (⟨p.1⟩, p.2)))

/-- Lookup of a key in the parsed key → value association
(`key_value.find("typehash")`). -/
def lookupValue : List (String × List Char) → String → Option (List Char)
  | [], _ => none
  | kv :: rest, k => if kv.1 = k then some kv.2 else lookupValue rest k

/-- Characters of the literal `typehash=` key prefix. -/
def typehashKeyChars : List Char := ['t', 'y', 'p', 'e', 'h', 'a', 's', 'h', '=']

/-- Embedding of `encode_type_hash_for_user_data_qos` (qos.cpp lines
916-951) on the happy path (stringification allocation succeeds): an
unset-version hash yields the empty string, otherwise
`typehash=<stringified>;`. -/
def encodeTypeHashChars (typeHash : TypeHash) : List Char :=
  if typeHash.version = 0 then []
  else typehashKeyChars ++ stringifyTypeHashChars typeHash ++ [';']

/-- String form of `encode_type_hash_for_user_data_qos`'s output. -/
def encodeTypeHashForUserDataQos (typeHash : TypeHash) : String :=
  ⟨encodeTypeHashChars typeHash⟩

/-- Embedding of `parse_type_hash_from_user_data` (qos.cpp lines 877-907)
for non-null user data: parse the `key=value;` pairs; a missing `typehash`
key yields the zero-initialized hash with OK status; an unparsable value
yields `RMW_RET_ERROR`. -/
def parseTypeHashFromUserData (userData : List Char) : Except RmwRet TypeHash :=
  match lookupValue (parseKeyValue userData) "typehash" with
  | none => .ok zeroTypeHash
  | some v =>
    match parseTypeHashChars v with
    | some h => .ok h
    | none => .error .error

/-- Number of callback invocations an operation performs on a cache, given
whether the operation reports a change: one when a callback is registered and
the condition holds, zero otherwise (the count of
`GRAPH_CACHE_CALL_ON_CHANGE_CALLBACK_IF`). -/
def cbDelta (gc : GraphCache) (changed : Bool) : Nat :=
  if gc.hasCallback && changed then 1 else 0

/-- Concrete profile with no sentinel values: reliable, volatile, automatic,
default durations. -/
def profileBase : QoSProfile :=
  { history := .keepLast
    depth := 10
    reliability := .reliable
    durability := .volatile
    deadline := deadlineDefault
    lifespan := ⟨0, 0⟩
    liveliness := .automatic
    livelinessLeaseDuration := livelinessLeaseDurationDefault
    avoidRosNamespaceConventions := false }

/-- Profile requesting BEST_AVAILABLE for every resolvable policy. -/
def profileAllBestAvailable : QoSProfile :=
  { profileBase with
    reliability := .bestAvailable
    durability := .bestAvailable
    deadline := deadlineBestAvailable
    liveliness := .bestAvailable
    livelinessLeaseDuration := livelinessLeaseDurationBestAvailable }

/-- Subscription profile announcing a deadline greater than
`RMW_DURATION_INFINITE` (valid per the data model: any `uint64` seconds
value with nanoseconds below 10^9). -/
def subDeadlineHuge : QoSProfile := { profileBase with deadline := ⟨9223372037, 0⟩ }

/-- Publisher profile requesting only a BEST_AVAILABLE deadline. -/
def pubDeadlineBA : QoSProfile := { profileBase with deadline := deadlineBestAvailable }

/-- Two subscriptions with deadlines of 5 and 7 seconds (spec §8,
scenario 5). -/
def subsDeadlines : List QoSProfile :=
  [{ profileBase with deadline := ⟨5, 0⟩ }, { profileBase with deadline := ⟨7, 0⟩ }]

/-- Cache holding one participant (gid `[1]`, enclave `"e"`) and nothing
else, with a registered change callback. -/
def gcWithParticipant : GraphCache :=
  { dataWriters := []
    dataReaders := []
    participants := [([1], { nodeEntitiesInfoSeq := [], enclave := "e" })]
    hasCallback := true
    callbackCount := 0 }

/-- Cache with one participant (gid `[1]`) owning node `("n", "ns")`, which
claims writer `[2]` and reader `[4]`; writer `[3]` belongs to a participant
(gid `[7]`) unknown to the cache. -/
def gcNode : GraphCache :=
  { dataWriters :=
      [([2], { topicName := "t", topicType := "ty", topicTypeHash := zeroTypeHash,
               participantGid := [1], qos := profileBase }),
       ([3], { topicName := "t", topicType := "ty2", topicTypeHash := zeroTypeHash,
               participantGid := [7], qos := profileBase })]
    dataReaders :=
      [([4], { topicName := "t", topicType := "tyr", topicTypeHash := zeroTypeHash,
               participantGid := [1], qos := profileBase })]
    participants :=
      [([1], { nodeEntitiesInfoSeq :=
                 [{ nodeNamespace := "ns", nodeName := "n",
                    readerGidSeq := [[4]], writerGidSeq := [[2]] }],
               enclave := "e" })]
    hasCallback := true
    callbackCount := 0 }

/-- Type hash with version 1 and a 32-byte value. -/
def typeHashExample : TypeHash := ⟨1, List.replicate 32 171⟩

/-- Endpoint-info entry produced by `get_writers_info_by_topic` on `gcNode`
for writer `[2]` (claimed by node `("n", "ns")`). -/
def epWriterExample : TopicEndpointInfo :=
  { nodeName := "n"
    nodeNamespace := "ns"
    topicType := "ty"
    topicTypeHash := zeroTypeHash
    endpointIsReader := false
    gid := [2]
    qos := profileBase }

section Helpers

variable {α β : Type} [DecidableEq α]

@[simp]
theorem lookupKey_nil (k : α) : lookupKey ([] : List (α × β)) k = none := rfl

@[simp]
theorem lookupKey_cons (kv : α × β) (m : List (α × β)) (k : α) :
    lookupKey (kv :: m) k = if kv.1 = k then some kv.2 else lookupKey m k := rfl

theorem lookupKey_append_of_none {m : List (α × β)} {k : α}
    (l : List (α × β)) (h : lookupKey m k = none) :
    lookupKey (m ++ l) k = lookupKey l k := by
  induction m with
  | nil => simp
  | cons kv rest ih =>
    by_cases hk : kv.1 = k
    · simp [hk] at h
    · simp only [List.cons_append, lookupKey_cons, if_neg hk] at h ⊢
      exact ih h

theorem lookupKey_append_of_some {m : List (α × β)} {k : α} {v : β}
    (l : List (α × β)) (h : lookupKey m k = some v) :
    lookupKey (m ++ l) k = some v := by
  induction m with
  | nil => simp at h
  | cons kv rest ih =>
    by_cases hk : kv.1 = k
    · simp only [lookupKey_cons, if_pos hk] at h
      simp [hk, h]
    · simp only [List.cons_append, lookupKey_cons, if_neg hk] at h ⊢
      exact ih h

theorem lookupKey_append_singleton {m : List (α × β)} {k : α} (v : β)
    (h : lookupKey m k = none) :
    lookupKey (m ++ [(k, v)]) k = some v := by
  rw [lookupKey_append_of_none _ h]; simp

@[simp]
theorem lookupKey_eraseKey_self (m : List (α × β)) (k : α) :
    lookupKey (eraseKey m k) k = none := by
  induction m with
  | nil => rfl
  | cons kv rest ih =>
    by_cases hk : kv.1 = k
    · simpa [eraseKey, hk] using ih
    · simpa [eraseKey, hk] using ih

theorem lookupKey_setKey (m : List (α × β)) (k q : α) (f : β → β) :
    lookupKey (setKey m k f) q =
      if k = q then (lookupKey m q).map f else lookupKey m q := by
  induction m with
  | nil => simp [setKey]
  | cons kv rest ih =>
    simp only [setKey, List.map_cons] at ih ⊢
    by_cases hk : kv.1 = k
    · subst hk
      by_cases hq : kv.1 = q
      · subst hq; simp [ih]
      · simp [hq, ih]
    · by_cases hq : kv.1 = q
      · subst hq
        have hkq : ¬ k = kv.1 := fun h => hk h.symm
        simp [hk, hkq]
      · simp [hk, hq, ih]

@[simp]
theorem lookupKey_setKey_self (m : List (α × β)) (k : α) (f : β → β) :
    lookupKey (setKey m k f) k = (lookupKey m k).map f := by
  simp [lookupKey_setKey]

theorem lookupKey_setKey_isSome (m : List (α × β)) (k q : α) (f : β → β) :
    (lookupKey (setKey m k f) q).isSome = (lookupKey m q).isSome := by
  rw [lookupKey_setKey]
  by_cases hkq : k = q <;> simp [hkq]

theorem setKey_idem {f : β → β} (hf : ∀ b, f (f b) = f b) (m : List (α × β)) (k : α) :
    setKey (setKey m k f) k f = setKey m k f := by
  induction m with
  | nil => rfl
  | cons kv rest ih =>
    by_cases hk : kv.1 = k
    · simp [setKey, hk, hf]
      simpa [setKey] using ih
    · simp [setKey, hk]
      simpa [setKey] using ih

@[simp]
theorem callOnChange_dataWriters (gc : GraphCache) (b : Bool) :
    (callOnChangeCallbackIf gc b).dataWriters = gc.dataWriters := by
  unfold callOnChangeCallbackIf; split <;> rfl

@[simp]
theorem callOnChange_dataReaders (gc : GraphCache) (b : Bool) :
    (callOnChangeCallbackIf gc b).dataReaders = gc.dataReaders := by
  unfold callOnChangeCallbackIf; split <;> rfl

@[simp]
theorem callOnChange_participants (gc : GraphCache) (b : Bool) :
    (callOnChangeCallbackIf gc b).participants = gc.participants := by
  unfold callOnChangeCallbackIf; split <;> rfl

@[simp]
theorem callOnChange_hasCallback (gc : GraphCache) (b : Bool) :
    (callOnChangeCallbackIf gc b).hasCallback = gc.hasCallback := by
  unfold callOnChangeCallbackIf; split <;> rfl

theorem callOnChange_callbackCount (gc : GraphCache) (b : Bool) :
    (callOnChangeCallbackIf gc b).callbackCount = gc.callbackCount + cbDelta gc b := by
  unfold callOnChangeCallbackIf cbDelta; split <;> simp_all

end Helpers

section OpFacts

variable (gc : GraphCache) (gid participantGid : Gid) (topicName typeName : String)
variable (typeHash : TypeHash) (qos : QoSProfile)

theorem add_writer_snd :
    (gc.add_writer gid topicName typeName typeHash participantGid qos).2 =
      (lookupKey gc.dataWriters gid).isNone := by
  unfold GraphCache.add_writer
  cases h : lookupKey gc.dataWriters gid <;> simp [h]

theorem add_writer_dataWriters :
    (gc.add_writer gid topicName typeName typeHash participantGid qos).1.dataWriters =
      (match lookupKey gc.dataWriters gid with
       | some _ => gc.dataWriters
       | none => gc.dataWriters ++
           [(gid, ⟨topicName, typeName, typeHash, participantGid, qos⟩)]) := by
  unfold GraphCache.add_writer
  cases h : lookupKey gc.dataWriters gid <;> simp [h]

theorem add_reader_snd :
    (gc.add_reader gid topicName typeName typeHash participantGid qos).2 =
      (lookupKey gc.dataReaders gid).isNone := by
  unfold GraphCache.add_reader
  cases h : lookupKey gc.dataReaders gid <;> simp [h]

theorem add_reader_dataReaders :
    (gc.add_reader gid topicName typeName typeHash participantGid qos).1.dataReaders =
      (match lookupKey gc.dataReaders gid with
       | some _ => gc.dataReaders
       | none => gc.dataReaders ++
           [(gid, ⟨topicName, typeName, typeHash, participantGid, qos⟩)]) := by
  unfold GraphCache.add_reader
  cases h : lookupKey gc.dataReaders gid <;> simp [h]

theorem remove_writer_snd :
    (gc.remove_writer gid).2 = (lookupKey gc.dataWriters gid).isSome := rfl

theorem remove_writer_dataWriters :
    (gc.remove_writer gid).1.dataWriters = eraseKey gc.dataWriters gid := by
  unfold GraphCache.remove_writer
  simp

theorem remove_reader_snd :
    (gc.remove_reader gid).2 = (lookupKey gc.dataReaders gid).isSome := rfl

theorem remove_reader_dataReaders :
    (gc.remove_reader gid).1.dataReaders = eraseKey gc.dataReaders gid := by
  unfold GraphCache.remove_reader
  simp

end OpFacts

/-- Claim C5: for every gid, `add_writer` (and `add_reader`) returns `true`
on the first call and `false` on every immediate repeat with the same gid,
leaving the stored map — hence the stored `EntityInfo` — unchanged on the
repeat; `remove_writer` (and `remove_reader`) returns `true` exactly once per
prior add and `false` when the gid is absent. -/
theorem add_remove_entity_idempotence (gc : GraphCache) (gid : Gid)
    (topicName typeName : String) (typeHash : TypeHash) (participantGid : Gid)
    (qos : QoSProfile) :
    ((gc.add_writer gid topicName typeName typeHash participantGid qos).2 =
      (lookupKey gc.dataWriters gid).isNone) ∧
    (((gc.add_writer gid topicName typeName typeHash participantGid qos).1.add_writer
        gid topicName typeName typeHash participantGid qos).2 = false) ∧
    (((gc.add_writer gid topicName typeName typeHash participantGid qos).1.add_writer
        gid topicName typeName typeHash participantGid qos).1.dataWriters =
      (gc.add_writer gid topicName typeName typeHash participantGid qos).1.dataWriters) ∧
    (((gc.add_writer gid topicName typeName typeHash participantGid qos).1.remove_writer
        gid).2 = true) ∧
    ((gc.remove_writer gid).2 = (lookupKey gc.dataWriters gid).isSome) ∧
    (((gc.remove_writer gid).1.remove_writer gid).2 = false) ∧
    ((gc.add_reader gid topicName typeName typeHash participantGid qos).2 =
      (lookupKey gc.dataReaders gid).isNone) ∧
    (((gc.add_reader gid topicName typeName typeHash participantGid qos).1.add_reader
        gid topicName typeName typeHash participantGid qos).2 = false) ∧
    (((gc.add_reader gid topicName typeName typeHash participantGid qos).1.add_reader
        gid topicName typeName typeHash participantGid qos).1.dataReaders =
      (gc.add_reader gid topicName typeName typeHash participantGid qos).1.dataReaders) ∧
    (((gc.add_reader gid topicName typeName typeHash participantGid qos).1.remove_reader
        gid).2 = true) ∧
    ((gc.remove_reader gid).2 = (lookupKey gc.dataReaders gid).isSome) ∧
    (((gc.remove_reader gid).1.remove_reader gid).2 = false) := by
  have hwl : ∀ v : EntityInfo, lookupKey gc.dataWriters gid = none →
      lookupKey (gc.dataWriters ++ [(gid, v)]) gid = some v :=
    fun v h => lookupKey_append_singleton v h
  have hrl : ∀ v : EntityInfo, lookupKey gc.dataReaders gid = none →
      lookupKey (gc.dataReaders ++ [(gid, v)]) gid = some v :=
    fun v h => lookupKey_append_singleton v h
  refine ⟨?_, ?_, ?_, ?_, ?_, ?_, ?_, ?_, ?_, ?_, ?_, ?_⟩
  · exact add_writer_snd ..
  · rw [add_writer_snd, add_writer_dataWriters]
    cases h : lookupKey gc.dataWriters gid with
    | some v => simp [h]
    | none => simp [hwl _ h]
  · rw [add_writer_dataWriters, add_writer_dataWriters]
    cases h : lookupKey gc.dataWriters gid with
    | some v => simp [h]
    | none => simp [h, hwl _ h]
  · rw [remove_writer_snd, add_writer_dataWriters]
    cases h : lookupKey gc.dataWriters gid with
    | some v => simp [h]
    | none => simp [hwl _ h]
  · exact remove_writer_snd ..
  · rw [remove_writer_snd, remove_writer_dataWriters]
    simp
  · exact add_reader_snd ..
  · rw [add_reader_snd, add_reader_dataReaders]
    cases h : lookupKey gc.dataReaders gid with
    | some v => simp [h]
    | none => simp [hrl _ h]
  · rw [add_reader_dataReaders, add_reader_dataReaders]
    cases h : lookupKey gc.dataReaders gid with
    | some v => simp [h]
    | none => simp [h, hrl _ h]
  · rw [remove_reader_snd, add_reader_dataReaders]
    cases h : lookupKey gc.dataReaders gid with
    | some v => simp [h]
    | none => simp [hrl _ h]
  · exact remove_reader_snd ..
  · rw [remove_reader_snd, remove_reader_dataReaders]
    simp

set_option maxHeartbeats 1000000 in
theorem errorVerdict_eq_ok_iff (pub sub : QoSProfile) :
    errorVerdict pub sub = .ok ↔ ¬ anyErrorRow pub sub := by
  unfold errorVerdict anyErrorRow
  split_ifs <;> simp_all

set_option maxHeartbeats 1000000 in
theorem errorVerdict_ne_warning (pub sub : QoSProfile) :
    errorVerdict pub sub ≠ .warning := by
  unfold errorVerdict
  split_ifs <;> simp

set_option maxHeartbeats 1000000 in
theorem warningVerdict_concrete (pub sub : QoSProfile)
    (hp : concreteProfile pub) (hs : concreteProfile sub) :
    warningVerdict pub sub = .ok := by
  obtain ⟨hp1, hp2, hp3⟩ := hp
  obtain ⟨hs1, hs2, hs3⟩ := hs
  unfold warningVerdict
  split_ifs <;> first | rfl | tauto

/-- Claim C1: for concrete profiles (reliability, durability and liveliness
neither SYSTEM_DEFAULT nor UNKNOWN on either side, the sense of "concrete" in
spec §4.2) and valid output arguments, `qos_profile_check_compatible` sets
the verdict to OK iff none of the seven ERROR rows of the decision table
holds; and — for arbitrary profiles — a WARNING verdict is produced only
when no ERROR row holds, i.e. when the verdict would otherwise be OK. -/
theorem qos_profile_check_compatible_spec (pub sub : QoSProfile)
    (hp : concreteProfile pub) (hs : concreteProfile sub) :
    (checkCompatibleVerdict pub sub = .ok ↔ ¬ anyErrorRow pub sub) ∧
    (∀ p s : QoSProfile, checkCompatibleVerdict p s = .warning → ¬ anyErrorRow p s) := by
  constructor
  · unfold checkCompatibleVerdict
    by_cases he : errorVerdict pub sub = .ok
    · rw [if_pos he, warningVerdict_concrete pub sub hp hs]
      exact Iff.intro (fun _ => (errorVerdict_eq_ok_iff pub sub).1 he) (fun _ => rfl)
    · rw [if_neg he]
      constructor
      · intro h; exact absurd h he
      · intro h; exact absurd ((errorVerdict_eq_ok_iff pub sub).2 h) he
  · intro p s hw
    unfold checkCompatibleVerdict at hw
    by_cases he : errorVerdict p s = .ok
    · exact (errorVerdict_eq_ok_iff p s).1 he
    · rw [if_neg he] at hw
      exact absurd hw (errorVerdict_ne_warning p s)

/-- Witness for C1 at a concrete input: the base profile is concrete, and the
equivalence holds for it. -/
theorem qos_profile_check_compatible_spec_witness :
    concreteProfile profileBase ∧
    (checkCompatibleVerdict profileBase profileBase = .ok ↔
      ¬ anyErrorRow profileBase profileBase) :=
  ⟨by decide,
   (qos_profile_check_compatible_spec profileBase profileBase (by decide) (by decide)).1⟩

/-- Counterexample to claim C2 as stated: for the empty publisher-info array,
`qos_profile_get_best_available_for_subscription` resolves a BEST_AVAILABLE
reliability to RELIABLE (not BEST_EFFORT as claimed), durability to
TRANSIENT_LOCAL (not VOLATILE) and liveliness to MANUAL_BY_TOPIC (not
AUTOMATIC), because the "all publishers" counts vacuously equal the array
size zero. -/
theorem qos_best_available_subscription_empty_counterexample :
    (qosProfileGetBestAvailableForSubscription [] profileAllBestAvailable).reliability =
      ReliabilityPolicy.reliable ∧
    (qosProfileGetBestAvailableForSubscription [] profileAllBestAvailable).durability =
      DurabilityPolicy.transientLocal ∧
    (qosProfileGetBestAvailableForSubscription [] profileAllBestAvailable).liveliness =
      LivelinessPolicy.manualByTopic ∧
    ReliabilityPolicy.reliable ≠ ReliabilityPolicy.bestEffort := by decide

/-- Claim C2 (amended): for an empty publisher-info array,
`qos_profile_get_best_available_for_subscription` resolves every
BEST_AVAILABLE policy of the subscription profile to the vacuous "all
publishers" branch — reliability becomes RELIABLE, durability becomes
TRANSIENT_LOCAL, liveliness becomes MANUAL_BY_TOPIC — while deadline and
liveliness lease duration become DEFAULT; non-sentinel policies are left
unchanged. -/
theorem qos_best_available_subscription_empty (sub : QoSProfile) :
    qosProfileGetBestAvailableForSubscription [] sub =
      { sub with
        reliability := if sub.reliability = .bestAvailable then .reliable else sub.reliability
        durability := if sub.durability = .bestAvailable then .transientLocal else sub.durability
        liveliness := if sub.liveliness = .bestAvailable then .manualByTopic else sub.liveliness
        deadline := if sub.deadline = deadlineBestAvailable then deadlineDefault else sub.deadline
        livelinessLeaseDuration :=
          if sub.livelinessLeaseDuration = livelinessLeaseDurationBestAvailable then
            livelinessLeaseDurationDefault
          else sub.livelinessLeaseDuration } := by
  by_cases h1 : sub.reliability = .bestAvailable <;>
    by_cases h2 : sub.durability = .bestAvailable <;>
    by_cases h3 : sub.liveliness = .bestAvailable <;>
    by_cases h4 : sub.deadline = deadlineBestAvailable <;>
    by_cases h5 : sub.livelinessLeaseDuration = livelinessLeaseDurationBestAvailable <;>
    simp [qosProfileGetBestAvailableForSubscription, subScanInit, h1, h2, h3, h4, h5]

theorem timeLt_trans {a b c : RmwTime} (h1 : timeLt a b) (h2 : timeLt b c) : timeLt a c := by
  unfold timeLt at h1 h2 ⊢; omega

theorem timeLt_of_not_lt_of_lt {a b c : RmwTime} (h1 : ¬ timeLt a b) (h2 : timeLt a c) :
    timeLt b c := by
  unfold timeLt at h1 h2 ⊢; omega

theorem pubScanStep_useManualByTopic (s : PubScanState) (q : QoSProfile) :
    (pubScanStep s q).useManualByTopic =
      (s.useManualByTopic || decide (q.liveliness = .manualByTopic)) := by
  unfold pubScanStep
  split_ifs <;> simp_all [apply_ite]

theorem pubScanStep_useDefaultDeadline (s : PubScanState) (q : QoSProfile) :
    (pubScanStep s q).useDefaultDeadline =
      (s.useDefaultDeadline && decide (q.deadline = deadlineDefault)) := by
  unfold pubScanStep
  split_ifs <;> simp_all [apply_ite]

theorem pubScanStep_smallestDeadline (s : PubScanState) (q : QoSProfile) :
    (pubScanStep s q).smallestDeadline =
      if q.deadline ≠ deadlineDefault then
        (if timeLt q.deadline s.smallestDeadline then q.deadline else s.smallestDeadline)
      else s.smallestDeadline := by
  unfold pubScanStep
  split_ifs <;> simp_all [apply_ite]

theorem pubScanStep_useDefaultLease (s : PubScanState) (q : QoSProfile) :
    (pubScanStep s q).useDefaultLeaseDuration =
      (s.useDefaultLeaseDuration &&
        decide (q.livelinessLeaseDuration = livelinessLeaseDurationDefault)) := by
  unfold pubScanStep
  split_ifs <;> simp_all [apply_ite]

theorem pubScanStep_smallestLease (s : PubScanState) (q : QoSProfile) :
    (pubScanStep s q).smallestLeaseDuration =
      if q.livelinessLeaseDuration ≠ livelinessLeaseDurationDefault then
        (if timeLt q.livelinessLeaseDuration s.smallestLeaseDuration then
          q.livelinessLeaseDuration else s.smallestLeaseDuration)
      else s.smallestLeaseDuration := by
  unfold pubScanStep
  split_ifs <;> simp_all [apply_ite]

theorem pubScan_useManualByTopic (subs : List QoSProfile) (s : PubScanState) :
    (subs.foldl pubScanStep s).useManualByTopic =
      (s.useManualByTopic || subs.any (fun q => decide (q.liveliness = .manualByTopic))) := by
  induction subs generalizing s with
  | nil => simp
  | cons q rest ih =>
    rw [List.foldl_cons, ih, pubScanStep_useManualByTopic]
    simp [Bool.or_assoc]

theorem pubScan_useDefaultDeadline (subs : List QoSProfile) (s : PubScanState) :
    (subs.foldl pubScanStep s).useDefaultDeadline =
      (s.useDefaultDeadline && subs.all (fun q => decide (q.deadline = deadlineDefault))) := by
  induction subs generalizing s with
  | nil => simp
  | cons q rest ih =>
    rw [List.foldl_cons, ih, pubScanStep_useDefaultDeadline]
    simp [Bool.and_assoc]

theorem pubScan_useDefaultLease (subs : List QoSProfile) (s : PubScanState) :
    (subs.foldl pubScanStep s).useDefaultLeaseDuration =
      (s.useDefaultLeaseDuration &&
        subs.all (fun q => decide (q.livelinessLeaseDuration = livelinessLeaseDurationDefault))) := by
  induction subs generalizing s with
  | nil => simp
  | cons q rest ih =>
    rw [List.foldl_cons, ih, pubScanStep_useDefaultLease]
    simp [Bool.and_assoc]

theorem pubScan_smallestDeadline (subs : List QoSProfile) (s : PubScanState) :
    ((subs.foldl pubScanStep s).smallestDeadline = s.smallestDeadline ∨
      (subs.foldl pubScanStep s).smallestDeadline ∈
        (subs.map (fun q => q.deadline)).filter (fun d => decide (d ≠ deadlineDefault))) ∧
    (∀ d ∈ (subs.map (fun q => q.deadline)).filter (fun d => decide (d ≠ deadlineDefault)),
      ¬ timeLt d (subs.foldl pubScanStep s).smallestDeadline) ∧
    ¬ timeLt s.smallestDeadline (subs.foldl pubScanStep s).smallestDeadline := by
  induction subs generalizing s with
  | nil =>
    refine ⟨Or.inl rfl, by simp, ?_⟩
    simp only [List.foldl_nil]
    unfold timeLt; omega
  | cons q rest ih =>
    rw [List.foldl_cons]
    obtain ⟨ihMem, ihLb, ihInit⟩ := ih (pubScanStep s q)
    by_cases hd : q.deadline = deadlineDefault
    · have hstep : (pubScanStep s q).smallestDeadline = s.smallestDeadline := by
        rw [pubScanStep_smallestDeadline]; simp [hd]
      rw [hstep] at ihMem ihInit
      refine ⟨?_, ?_, ihInit⟩
      · simpa [hd] using ihMem
      · simpa [hd] using ihLb
    · have hstep : (pubScanStep s q).smallestDeadline =
          (if timeLt q.deadline s.smallestDeadline then q.deadline else s.smallestDeadline) := by
        rw [pubScanStep_smallestDeadline]; simp [hd]
      refine ⟨?_, ?_, ?_⟩
      · rcases ihMem with hEq | hMem
        · rw [hEq, hstep]
          split_ifs with hlt
          · exact Or.inr (by simp [hd])
          · exact Or.inl rfl
        · exact Or.inr (by simp [hd]; exact Or.inr (by simpa using hMem))
      · intro d hdMem
        have hdMem' : d = q.deadline ∨
            d ∈ (rest.map (fun q => q.deadline)).filter (fun d => decide (d ≠ deadlineDefault)) := by
          simpa [hd] using hdMem
        rcases hdMem' with rfl | hdMem'
        · rw [hstep] at ihInit
          split_ifs at ihInit with hlt
          · exact ihInit
          · intro hcon
            exact ihInit (timeLt_of_not_lt_of_lt hlt hcon)
        · exact ihLb d hdMem'
      · rw [hstep] at ihInit
        split_ifs at ihInit with hlt
        · intro hcon
          exact ihInit (timeLt_trans hlt hcon)
        · exact ihInit

theorem pubScan_smallestLease (subs : List QoSProfile) (s : PubScanState) :
    ((subs.foldl pubScanStep s).smallestLeaseDuration = s.smallestLeaseDuration ∨
      (subs.foldl pubScanStep s).smallestLeaseDuration ∈
        (subs.map (fun q => q.livelinessLeaseDuration)).filter
          (fun d => decide (d ≠ livelinessLeaseDurationDefault))) ∧
    (∀ d ∈ (subs.map (fun q => q.livelinessLeaseDuration)).filter
        (fun d => decide (d ≠ livelinessLeaseDurationDefault)),
      ¬ timeLt d (subs.foldl pubScanStep s).smallestLeaseDuration) ∧
    ¬ timeLt s.smallestLeaseDuration (subs.foldl pubScanStep s).smallestLeaseDuration := by
  induction subs generalizing s with
  | nil =>
    refine ⟨Or.inl rfl, by simp, ?_⟩
    simp only [List.foldl_nil]
    unfold timeLt; omega
  | cons q rest ih =>
    rw [List.foldl_cons]
    obtain ⟨ihMem, ihLb, ihInit⟩ := ih (pubScanStep s q)
    by_cases hd : q.livelinessLeaseDuration = livelinessLeaseDurationDefault
    · have hstep : (pubScanStep s q).smallestLeaseDuration = s.smallestLeaseDuration := by
        rw [pubScanStep_smallestLease]; simp [hd]
      rw [hstep] at ihMem ihInit
      refine ⟨?_, ?_, ihInit⟩
      · simpa [hd] using ihMem
      · simpa [hd] using ihLb
    · have hstep : (pubScanStep s q).smallestLeaseDuration =
          (if timeLt q.livelinessLeaseDuration s.smallestLeaseDuration then
            q.livelinessLeaseDuration else s.smallestLeaseDuration) := by
        rw [pubScanStep_smallestLease]; simp [hd]
      refine ⟨?_, ?_, ?_⟩
      · rcases ihMem with hEq | hMem
        · rw [hEq, hstep]
          split_ifs with hlt
          · exact Or.inr (by simp [hd])
          · exact Or.inl rfl
        · exact Or.inr (by simp [hd]; exact Or.inr (by simpa using hMem))
      · intro d hdMem
        have hdMem' : d = q.livelinessLeaseDuration ∨
            d ∈ (rest.map (fun q => q.livelinessLeaseDuration)).filter
              (fun d => decide (d ≠ livelinessLeaseDurationDefault)) := by
          simpa [hd] using hdMem
        rcases hdMem' with rfl | hdMem'
        · rw [hstep] at ihInit
          split_ifs at ihInit with hlt
          · exact ihInit
          · intro hcon
            exact ihInit (timeLt_of_not_lt_of_lt hlt hcon)
        · exact ihLb d hdMem'
      · rw [hstep] at ihInit
        split_ifs at ihInit with hlt
        · intro hcon
          exact ihInit (timeLt_trans hlt hcon)
        · exact ihInit

set_option maxRecDepth 8192 in
set_option maxHeartbeats 2000000 in
theorem gbaPub_shape (subs : List QoSProfile) (pub : QoSProfile) :
    qosProfileGetBestAvailableForPublisher subs pub =
      { pub with
        reliability := if pub.reliability = .bestAvailable then .reliable else pub.reliability
        durability := if pub.durability = .bestAvailable then .transientLocal else pub.durability
        liveliness := if pub.liveliness = .bestAvailable then
            (if (subs.foldl pubScanStep pubScanInit).useManualByTopic then
              .manualByTopic else .automatic)
          else pub.liveliness
        deadline := if pub.deadline = deadlineBestAvailable then
            (if (subs.foldl pubScanStep pubScanInit).useDefaultDeadline then
              deadlineDefault else (subs.foldl pubScanStep pubScanInit).smallestDeadline)
          else pub.deadline
        livelinessLeaseDuration :=
          if pub.livelinessLeaseDuration = livelinessLeaseDurationBestAvailable then
            (if (subs.foldl pubScanStep pubScanInit).useDefaultLeaseDuration then
              livelinessLeaseDurationDefault
             else (subs.foldl pubScanStep pubScanInit).smallestLeaseDuration)
          else pub.livelinessLeaseDuration } := by
  by_cases h1 : pub.reliability = .bestAvailable <;>
    by_cases h2 : pub.durability = .bestAvailable <;>
    by_cases h3 : pub.liveliness = .bestAvailable <;>
    by_cases h4 : pub.deadline = deadlineBestAvailable <;>
    by_cases h5 : pub.livelinessLeaseDuration = livelinessLeaseDurationBestAvailable <;>
    by_cases h6 : (subs.foldl pubScanStep pubScanInit).useManualByTopic <;>
    by_cases h7 : (subs.foldl pubScanStep pubScanInit).useDefaultDeadline <;>
    by_cases h8 : (subs.foldl pubScanStep pubScanInit).useDefaultLeaseDuration <;>
    simp only [qosProfileGetBestAvailableForPublisher, h1, h2, h3, h4, h5, h6, h7, h8,
      if_true, if_false, if_pos, if_neg, not_false_iff, Bool.not_eq_true, ite_true, ite_false]

theorem gbaPub_reliability (subs : List QoSProfile) (pub : QoSProfile) :
    (qosProfileGetBestAvailableForPublisher subs pub).reliability =
      (if pub.reliability = .bestAvailable then .reliable else pub.reliability) := by
  rw [gbaPub_shape]

theorem gbaPub_durability (subs : List QoSProfile) (pub : QoSProfile) :
    (qosProfileGetBestAvailableForPublisher subs pub).durability =
      (if pub.durability = .bestAvailable then .transientLocal else pub.durability) := by
  rw [gbaPub_shape]

theorem gbaPub_liveliness (subs : List QoSProfile) (pub : QoSProfile) :
    (qosProfileGetBestAvailableForPublisher subs pub).liveliness =
      (if pub.liveliness = .bestAvailable then
        (if (subs.foldl pubScanStep pubScanInit).useManualByTopic then
          .manualByTopic else .automatic)
       else pub.liveliness) := by
  rw [gbaPub_shape]

theorem gbaPub_deadline (subs : List QoSProfile) (pub : QoSProfile) :
    (qosProfileGetBestAvailableForPublisher subs pub).deadline =
      (if pub.deadline = deadlineBestAvailable then
        (if (subs.foldl pubScanStep pubScanInit).useDefaultDeadline then
          deadlineDefault else (subs.foldl pubScanStep pubScanInit).smallestDeadline)
       else pub.deadline) := by
  rw [gbaPub_shape]

theorem gbaPub_lease (subs : List QoSProfile) (pub : QoSProfile) :
    (qosProfileGetBestAvailableForPublisher subs pub).livelinessLeaseDuration =
      (if pub.livelinessLeaseDuration = livelinessLeaseDurationBestAvailable then
        (if (subs.foldl pubScanStep pubScanInit).useDefaultLeaseDuration then
          livelinessLeaseDurationDefault
         else (subs.foldl pubScanStep pubScanInit).smallestLeaseDuration)
       else pub.livelinessLeaseDuration) := by
  rw [gbaPub_shape]

theorem gbaPub_untouched (subs : List QoSProfile) (pub : QoSProfile) :
    (qosProfileGetBestAvailableForPublisher subs pub).history = pub.history ∧
    (qosProfileGetBestAvailableForPublisher subs pub).depth = pub.depth ∧
    (qosProfileGetBestAvailableForPublisher subs pub).lifespan = pub.lifespan ∧
    (qosProfileGetBestAvailableForPublisher subs pub).avoidRosNamespaceConventions =
      pub.avoidRosNamespaceConventions := by
  rw [gbaPub_shape]
  exact ⟨rfl, rfl, rfl, rfl⟩

/-- Counterexample to claim C8 as stated: one subscription announcing the
non-default deadline of 9223372037 s (greater than `RMW_DURATION_INFINITE`,
valid in the data model): the resolved deadline is `RMW_DURATION_INFINITE`
(the loop's starting value, which the observed deadline never undercuts),
not the minimum non-default deadline observed. -/
theorem qos_best_available_publisher_counterexample :
    subDeadlineHuge.deadline ≠ deadlineDefault ∧
    (qosProfileGetBestAvailableForPublisher [subDeadlineHuge] pubDeadlineBA).deadline =
      durationInfinite ∧
    durationInfinite ≠ subDeadlineHuge.deadline := by decide

/-- Claim C8 (amended): `qos_profile_get_best_available_for_publisher`
replaces a BEST_AVAILABLE reliability with RELIABLE and a BEST_AVAILABLE
durability with TRANSIENT_LOCAL unconditionally; replaces a BEST_AVAILABLE
liveliness with MANUAL_BY_TOPIC if any subscription is MANUAL_BY_TOPIC and
AUTOMATIC otherwise; replaces a BEST_AVAILABLE deadline (and lease duration)
with DEFAULT if every subscription's value is DEFAULT and otherwise with the
minimum of `RMW_DURATION_INFINITE` and the non-default values observed
(a lower bound of, and either INFINITE or an element of, the observed
non-default values) — an observed value above INFINITE is never selected;
history, depth, lifespan (and the namespace-conventions flag) are
unchanged. -/
theorem qos_best_available_publisher_spec (subs : List QoSProfile) (pub : QoSProfile) :
    ((qosProfileGetBestAvailableForPublisher subs pub).reliability =
      (if pub.reliability = .bestAvailable then .reliable else pub.reliability)) ∧
    ((qosProfileGetBestAvailableForPublisher subs pub).durability =
      (if pub.durability = .bestAvailable then .transientLocal else pub.durability)) ∧
    ((qosProfileGetBestAvailableForPublisher subs pub).liveliness =
      (if pub.liveliness = .bestAvailable then
        (if subs.any (fun q => decide (q.liveliness = .manualByTopic)) then
          .manualByTopic else .automatic)
       else pub.liveliness)) ∧
    (pub.deadline = deadlineBestAvailable → (∀ q ∈ subs, q.deadline = deadlineDefault) →
      (qosProfileGetBestAvailableForPublisher subs pub).deadline = deadlineDefault) ∧
    (pub.deadline = deadlineBestAvailable → ¬ (∀ q ∈ subs, q.deadline = deadlineDefault) →
      ((qosProfileGetBestAvailableForPublisher subs pub).deadline = durationInfinite ∨
        (qosProfileGetBestAvailableForPublisher subs pub).deadline ∈
          (subs.map (fun q => q.deadline)).filter (fun d => decide (d ≠ deadlineDefault))) ∧
      (∀ d ∈ (subs.map (fun q => q.deadline)).filter (fun d => decide (d ≠ deadlineDefault)),
        ¬ timeLt d (qosProfileGetBestAvailableForPublisher subs pub).deadline) ∧
      ¬ timeLt durationInfinite (qosProfileGetBestAvailableForPublisher subs pub).deadline) ∧
    (pub.deadline ≠ deadlineBestAvailable →
      (qosProfileGetBestAvailableForPublisher subs pub).deadline = pub.deadline) ∧
    (pub.livelinessLeaseDuration = livelinessLeaseDurationBestAvailable →
      (∀ q ∈ subs, q.livelinessLeaseDuration = livelinessLeaseDurationDefault) →
      (qosProfileGetBestAvailableForPublisher subs pub).livelinessLeaseDuration =
        livelinessLeaseDurationDefault) ∧
    (pub.livelinessLeaseDuration = livelinessLeaseDurationBestAvailable →
      ¬ (∀ q ∈ subs, q.livelinessLeaseDuration = livelinessLeaseDurationDefault) →
      ((qosProfileGetBestAvailableForPublisher subs pub).livelinessLeaseDuration =
          durationInfinite ∨
        (qosProfileGetBestAvailableForPublisher subs pub).livelinessLeaseDuration ∈
          (subs.map (fun q => q.livelinessLeaseDuration)).filter
            (fun d => decide (d ≠ livelinessLeaseDurationDefault))) ∧
      (∀ d ∈ (subs.map (fun q => q.livelinessLeaseDuration)).filter
          (fun d => decide (d ≠ livelinessLeaseDurationDefault)),
        ¬ timeLt d (qosProfileGetBestAvailableForPublisher subs pub).livelinessLeaseDuration) ∧
      ¬ timeLt durationInfinite
        (qosProfileGetBestAvailableForPublisher subs pub).livelinessLeaseDuration) ∧
    (pub.livelinessLeaseDuration ≠ livelinessLeaseDurationBestAvailable →
      (qosProfileGetBestAvailableForPublisher subs pub).livelinessLeaseDuration =
        pub.livelinessLeaseDuration) ∧
    (qosProfileGetBestAvailableForPublisher subs pub).history = pub.history ∧
    (qosProfileGetBestAvailableForPublisher subs pub).depth = pub.depth ∧
    (qosProfileGetBestAvailableForPublisher subs pub).lifespan = pub.lifespan := by
  refine ⟨gbaPub_reliability subs pub, gbaPub_durability subs pub, ?_, ?_, ?_, ?_, ?_, ?_, ?_,
    (gbaPub_untouched subs pub).1, (gbaPub_untouched subs pub).2.1,
    (gbaPub_untouched subs pub).2.2.1⟩
  · rw [gbaPub_liveliness, pubScan_useManualByTopic]
    simp [pubScanInit]
  · intro hba hall
    rw [gbaPub_deadline, pubScan_useDefaultDeadline]
    have : subs.all (fun q => decide (q.deadline = deadlineDefault)) = true := by
      simp only [List.all_eq_true, decide_eq_true_eq]
      exact hall
    simp [hba, pubScanInit, this]
  · intro hba hnall
    have hall : subs.all (fun q => decide (q.deadline = deadlineDefault)) = false := by
      rcases Bool.eq_false_or_eq_true
          (subs.all (fun q => decide (q.deadline = deadlineDefault))) with ht | hf
      · exfalso
        apply hnall
        simpa only [List.all_eq_true, decide_eq_true_eq] using ht
      · exact hf
    have hdl : (qosProfileGetBestAvailableForPublisher subs pub).deadline =
        (subs.foldl pubScanStep pubScanInit).smallestDeadline := by
      rw [gbaPub_deadline, pubScan_useDefaultDeadline]
      simp [hba, pubScanInit, hall]
    obtain ⟨hMem, hLb, hInit⟩ := pubScan_smallestDeadline subs pubScanInit
    rw [hdl]
    exact ⟨by simpa [pubScanInit] using hMem, hLb, by simpa [pubScanInit] using hInit⟩
  · intro hnba
    rw [gbaPub_deadline]
    simp [hnba]
  · intro hba hall
    rw [gbaPub_lease, pubScan_useDefaultLease]
    have : subs.all (fun q => decide (q.livelinessLeaseDuration =
        livelinessLeaseDurationDefault)) = true := by
      simp only [List.all_eq_true, decide_eq_true_eq]
      exact hall
    simp [hba, pubScanInit, this]
  · intro hba hnall
    have hall : subs.all (fun q => decide (q.livelinessLeaseDuration =
        livelinessLeaseDurationDefault)) = false := by
      rcases Bool.eq_false_or_eq_true (subs.all (fun q => decide (q.livelinessLeaseDuration =
          livelinessLeaseDurationDefault))) with ht | hf
      · exfalso
        apply hnall
        simpa only [List.all_eq_true, decide_eq_true_eq] using ht
      · exact hf
    have hdl : (qosProfileGetBestAvailableForPublisher subs pub).livelinessLeaseDuration =
        (subs.foldl pubScanStep pubScanInit).smallestLeaseDuration := by
      rw [gbaPub_lease, pubScan_useDefaultLease]
      simp [hba, pubScanInit, hall]
    obtain ⟨hMem, hLb, hInit⟩ := pubScan_smallestLease subs pubScanInit
    rw [hdl]
    exact ⟨by simpa [pubScanInit] using hMem, hLb, by simpa [pubScanInit] using hInit⟩
  · intro hnba
    rw [gbaPub_lease]
    simp [hnba]

/-- Witness for C8 (amended) at a concrete input: the publisher profile with
a BEST_AVAILABLE deadline against the two subscriptions with deadlines of
5 s and 7 s; the resolution is an element of, and a lower bound of, the
observed non-default deadlines (together with INFINITE). -/
theorem qos_best_available_publisher_spec_witness :
    ((qosProfileGetBestAvailableForPublisher subsDeadlines pubDeadlineBA).deadline =
        durationInfinite ∨
      (qosProfileGetBestAvailableForPublisher subsDeadlines pubDeadlineBA).deadline ∈
        (subsDeadlines.map (fun q => q.deadline)).filter
          (fun d => decide (d ≠ deadlineDefault))) ∧
    (∀ d ∈ (subsDeadlines.map (fun q => q.deadline)).filter
        (fun d => decide (d ≠ deadlineDefault)),
      ¬ timeLt d (qosProfileGetBestAvailableForPublisher subsDeadlines pubDeadlineBA).deadline) ∧
    ¬ timeLt durationInfinite
      (qosProfileGetBestAvailableForPublisher subsDeadlines pubDeadlineBA).deadline :=
  (qos_best_available_publisher_spec subsDeadlines pubDeadlineBA).2.2.2.2.1
    (by decide) (by decide)

/-- Counterexample to claim C3 as stated: `add_participant` on a participant
whose enclave already equals the given value is a no-op on the observable
cache state, yet it invokes the change callback (the call site uses the
unconditional `GRAPH_CACHE_CALL_ON_CHANGE_CALLBACK`). -/
theorem graph_cache_callback_noop_counterexample :
    (gcWithParticipant.add_participant [1] "e").participants =
      gcWithParticipant.participants ∧
    (gcWithParticipant.add_participant [1] "e").dataWriters =
      gcWithParticipant.dataWriters ∧
    (gcWithParticipant.add_participant [1] "e").dataReaders =
      gcWithParticipant.dataReaders ∧
    (gcWithParticipant.add_participant [1] "e").callbackCount =
      gcWithParticipant.callbackCount + 1 := by decide

/-- Claim C3 (amended): with a registered callback, the discovery-plane
mutations `add_writer` / `add_reader` / `remove_writer` / `remove_reader` /
`remove_participant` invoke the change callback exactly once iff they changed
state (never on a failed or no-op mutation), while `add_participant`,
`update_participant_entities` and the node-plane operations (`add_node`,
`remove_node`, `associate_*`, `dissociate_*`) invoke it exactly once whenever
they run to completion, even when the mutation is a no-op (same enclave, or a
gid absent from the node's list). -/
theorem graph_cache_callback_semantics (gc : GraphCache) (gid participantGid : Gid)
    (topicName typeName : String) (typeHash : TypeHash) (qos : QoSProfile)
    (msg : ParticipantEntitiesInfo) (enclave nodeName nodeNamespace : String)
    (entityGid : Gid) :
    ((gc.add_writer gid topicName typeName typeHash participantGid qos).1.callbackCount =
      gc.callbackCount + cbDelta gc (lookupKey gc.dataWriters gid).isNone) ∧
    ((gc.add_reader gid topicName typeName typeHash participantGid qos).1.callbackCount =
      gc.callbackCount + cbDelta gc (lookupKey gc.dataReaders gid).isNone) ∧
    ((gc.remove_writer gid).1.callbackCount =
      gc.callbackCount + cbDelta gc (lookupKey gc.dataWriters gid).isSome) ∧
    ((gc.remove_reader gid).1.callbackCount =
      gc.callbackCount + cbDelta gc (lookupKey gc.dataReaders gid).isSome) ∧
    ((gc.remove_participant participantGid).1.callbackCount =
      gc.callbackCount + cbDelta gc (lookupKey gc.participants participantGid).isSome) ∧
    ((gc.add_participant participantGid enclave).callbackCount =
      gc.callbackCount + cbDelta gc true) ∧
    ((gc.update_participant_entities msg).callbackCount =
      gc.callbackCount + cbDelta gc true) ∧
    (∀ r, gc.add_node participantGid nodeName nodeNamespace = some r →
      r.1.callbackCount = gc.callbackCount + cbDelta gc true) ∧
    (∀ r, gc.remove_node participantGid nodeName nodeNamespace = some r →
      r.1.callbackCount = gc.callbackCount + cbDelta gc true) ∧
    (∀ r, gc.associate_writer entityGid participantGid nodeName nodeNamespace = some r →
      r.1.callbackCount = gc.callbackCount + cbDelta gc true) ∧
    (∀ r, gc.dissociate_writer entityGid participantGid nodeName nodeNamespace = some r →
      r.1.callbackCount = gc.callbackCount + cbDelta gc true) ∧
    (∀ r, gc.associate_reader entityGid participantGid nodeName nodeNamespace = some r →
      r.1.callbackCount = gc.callbackCount + cbDelta gc true) ∧
    (∀ r, gc.dissociate_reader entityGid participantGid nodeName nodeNamespace = some r →
      r.1.callbackCount = gc.callbackCount + cbDelta gc true) := by
  refine ⟨?_, ?_, ?_, ?_, ?_, ?_, ?_, ?_, ?_, ?_, ?_, ?_, ?_⟩
  · unfold GraphCache.add_writer
    cases h : lookupKey gc.dataWriters gid <;>
      simp [h, callOnChange_callbackCount, cbDelta]
  · unfold GraphCache.add_reader
    cases h : lookupKey gc.dataReaders gid <;>
      simp [h, callOnChange_callbackCount, cbDelta]
  · unfold GraphCache.remove_writer
    simp [callOnChange_callbackCount, cbDelta]
  · unfold GraphCache.remove_reader
    simp [callOnChange_callbackCount, cbDelta]
  · unfold GraphCache.remove_participant
    simp [callOnChange_callbackCount, cbDelta]
  · unfold GraphCache.add_participant
    cases h : lookupKey gc.participants participantGid <;>
      simp [h, callOnChange_callbackCount, cbDelta]
  · unfold GraphCache.update_participant_entities
    cases h : lookupKey gc.participants msg.gid <;>
      simp [h, callOnChange_callbackCount, cbDelta]
  · intro r hr
    unfold GraphCache.add_node at hr
    split at hr
    · exact absurd hr (by simp)
    · obtain rfl := (Option.some.injEq ..).mp hr
      simp [callOnChange_callbackCount, cbDelta]
  · intro r hr
    unfold GraphCache.remove_node at hr
    split at hr
    · exact absurd hr (by simp)
    · split at hr
      · exact absurd hr (by simp)
      · obtain rfl := (Option.some.injEq ..).mp hr
        simp [callOnChange_callbackCount, cbDelta]
  · intro r hr
    unfold GraphCache.associate_writer at hr
    split at hr
    · exact absurd hr (by simp)
    · obtain rfl := (Option.some.injEq ..).mp hr
      simp [callOnChange_callbackCount, cbDelta]
  · intro r hr
    unfold GraphCache.dissociate_writer at hr
    split at hr
    · exact absurd hr (by simp)
    · obtain rfl := (Option.some.injEq ..).mp hr
      simp [callOnChange_callbackCount, cbDelta]
  · intro r hr
    unfold GraphCache.associate_reader at hr
    split at hr
    · exact absurd hr (by simp)
    · obtain rfl := (Option.some.injEq ..).mp hr
      simp [callOnChange_callbackCount, cbDelta]
  · intro r hr
    unfold GraphCache.dissociate_reader at hr
    split at hr
    · exact absurd hr (by simp)
    · obtain rfl := (Option.some.injEq ..).mp hr
      simp [callOnChange_callbackCount, cbDelta]

/-- Witness for C3 (amended) at concrete inputs: on the cache `gcNode`,
`add_participant` with a fresh enclave fires the callback once, and
`dissociate_writer` of a gid that is not in the node's list (a no-op)
completes and also fires it once. -/
theorem graph_cache_callback_semantics_witness :
    (gcNode.add_participant [1] "e2").callbackCount =
      gcNode.callbackCount + cbDelta gcNode true ∧
    (gcNode.dissociate_writer [9] [1] "n" "ns").map (fun r => r.1.callbackCount) =
      some (gcNode.callbackCount + cbDelta gcNode true) := by
  have h := graph_cache_callback_semantics gcNode [9] [1] "t" "ty" zeroTypeHash profileBase
    ⟨[1], []⟩ "e2" "n" "ns" [9]
  refine ⟨h.2.2.2.2.2.1, ?_⟩
  cases hd : gcNode.dissociate_writer [9] [1] "n" "ns" with
  | none => exact absurd hd (by decide)
  | some r =>
    have hc := h.2.2.2.2.2.2.2.2.2.2.1 r hd
    simp [hc]

theorem update_participant_entities_participants (gc : GraphCache)
    (msg : ParticipantEntitiesInfo) :
    (gc.update_participant_entities msg).participants =
      setKey (match lookupKey gc.participants msg.gid with
              | some _ => gc.participants
              | none => gc.participants ++
                  [(msg.gid, { nodeEntitiesInfoSeq := [], enclave := "" })])
        msg.gid (fun pi => { pi with nodeEntitiesInfoSeq := msg.nodeEntitiesInfoSeq }) := by
  unfold GraphCache.update_participant_entities
  cases h : lookupKey gc.participants msg.gid <;> simp [h]

theorem update_participant_entities_lookup (gc : GraphCache)
    (msg : ParticipantEntitiesInfo) :
    lookupKey (gc.update_participant_entities msg).participants msg.gid =
      some { nodeEntitiesInfoSeq := msg.nodeEntitiesInfoSeq,
             enclave := (match lookupKey gc.participants msg.gid with
                         | some pi => pi.enclave
                         | none => "") } := by
  rw [update_participant_entities_participants]
  cases h : lookupKey gc.participants msg.gid with
  | some pi => simp [h]
  | none => simp [h, lookupKey_append_singleton _ h]

/-- Claim C4: `update_participant_entities(msg)` creates the participant
entry for `msg.gid` if absent (with empty enclave) and preserves the existing
enclave otherwise, replaces that participant's `node_entities_info_seq`
wholesale with the message's sequence (never merging), leaves the endpoint
maps untouched, and is idempotent on the cache state: applying the same
message twice leaves the same participants map as applying it once. -/
theorem update_participant_entities_spec (gc : GraphCache)
    (msg : ParticipantEntitiesInfo) :
    (lookupKey (gc.update_participant_entities msg).participants msg.gid =
      some { nodeEntitiesInfoSeq := msg.nodeEntitiesInfoSeq,
             enclave := (match lookupKey gc.participants msg.gid with
                         | some pi => pi.enclave
                         | none => "") }) ∧
    ((gc.update_participant_entities msg).update_participant_entities msg).participants =
      (gc.update_participant_entities msg).participants ∧
    (gc.update_participant_entities msg).dataWriters = gc.dataWriters ∧
    (gc.update_participant_entities msg).dataReaders = gc.dataReaders := by
  refine ⟨update_participant_entities_lookup gc msg, ?_, ?_, ?_⟩
  · simp only [update_participant_entities_participants (gc.update_participant_entities msg) msg,
      update_participant_entities_lookup gc msg]
    rw [update_participant_entities_participants gc msg]
    apply setKey_idem
    intro b
    rfl
  · unfold GraphCache.update_participant_entities
    cases h : lookupKey gc.participants msg.gid <;> simp [h]
  · unfold GraphCache.update_participant_entities
    cases h : lookupKey gc.participants msg.gid <;> simp [h]

theorem modifyNodeInfo_isSome (participantGid : Gid) (nodeName nodeNamespace : String)
    (func : NodeEntitiesInfo → NodeEntitiesInfo) (pm : ParticipantToNodesMap) :
    (modifyNodeInfo participantGid nodeName nodeNamespace func pm).isSome ↔
      ∃ pi, lookupKey pm participantGid = some pi ∧
        ∃ ni ∈ pi.nodeEntitiesInfoSeq,
          ni.nodeName = nodeName ∧ ni.nodeNamespace = nodeNamespace := by
  unfold modifyNodeInfo
  cases h : lookupKey pm participantGid with
  | none => simp [h]
  | some pi =>
    cases hf : pi.nodeEntitiesInfoSeq.find? (nodeMatches nodeName nodeNamespace) with
    | none =>
      have hno : ∀ ni ∈ pi.nodeEntitiesInfoSeq,
          ¬ (ni.nodeName = nodeName ∧ ni.nodeNamespace = nodeNamespace) := by
        intro ni hni
        have hd := List.find?_eq_none.mp hf ni hni
        simpa [nodeMatches] using hd
      simp only [h, hf, Option.isSome_none, Bool.false_eq_true, false_iff, not_exists,
        Option.some.injEq]
      rintro pi' ⟨rfl, ni, hni, hn, hns⟩
      exact hno ni hni ⟨hn, hns⟩
    | some ni =>
      have hmem := List.mem_of_find?_eq_some hf
      have hp := List.find?_some hf
      simp only [nodeMatches, decide_eq_true_eq] at hp
      simp only [h, hf, Option.isSome_some, true_iff, Option.some.injEq]
      exact ⟨pi, rfl, ni, hmem, hp.1, hp.2⟩

theorem modifyNodeInfo_preserves_keys (participantGid : Gid) (nodeName nodeNamespace : String)
    (func : NodeEntitiesInfo → NodeEntitiesInfo) (pm : ParticipantToNodesMap)
    (pm2 : ParticipantToNodesMap) (m : ParticipantEntitiesInfo)
    (h : modifyNodeInfo participantGid nodeName nodeNamespace func pm = some (pm2, m)) :
    ∀ q, (lookupKey pm2 q).isSome = (lookupKey pm q).isSome := by
  unfold modifyNodeInfo at h
  split at h
  · exact absurd h (by simp)
  · split at h
    · exact absurd h (by simp)
    · obtain ⟨rfl, rfl⟩ := Prod.mk.injEq .. |>.mp ((Option.some.injEq ..).mp h)
      intro q
      exact lookupKey_setKey_isSome ..

theorem add_participant_lookup_isSome (gc : GraphCache) (participantGid : Gid)
    (enclave : String) :
    (lookupKey (gc.add_participant participantGid enclave).participants
      participantGid).isSome = true := by
  unfold GraphCache.add_participant
  cases h : lookupKey gc.participants participantGid with
  | some pi => simp [h]
  | none => simp [h, lookupKey_append_singleton _ h]

/-- Claim C10: the local-node-plane operations require their participant (and
for all but `add_node` also the named node) to exist — checked only by
`assert`, modelled as the `none` outcome, with no error return — and under
those preconditions they always succeed; they never create a participant
entry (the participant key set is preserved), the discovery-plane entity
operations never touch the participants map at all, and
`update_participant_entities` and `add_participant` are the only operations
that create a missing participant entry. -/
theorem local_node_plane_preconditions (gc : GraphCache) (participantGid : Gid)
    (nodeName nodeNamespace : String) (entityGid : Gid) (msg : ParticipantEntitiesInfo)
    (enclave : String) (gid : Gid) (topicName typeName : String) (typeHash : TypeHash)
    (qos : QoSProfile) :
    ((gc.add_node participantGid nodeName nodeNamespace).isSome ↔
      (lookupKey gc.participants participantGid).isSome) ∧
    ((gc.remove_node participantGid nodeName nodeNamespace).isSome ↔
      ∃ pi, lookupKey gc.participants participantGid = some pi ∧
        ∃ ni ∈ pi.nodeEntitiesInfoSeq,
          ni.nodeName = nodeName ∧ ni.nodeNamespace = nodeNamespace) ∧
    ((gc.associate_writer entityGid participantGid nodeName nodeNamespace).isSome ↔
      ∃ pi, lookupKey gc.participants participantGid = some pi ∧
        ∃ ni ∈ pi.nodeEntitiesInfoSeq,
          ni.nodeName = nodeName ∧ ni.nodeNamespace = nodeNamespace) ∧
    ((gc.dissociate_writer entityGid participantGid nodeName nodeNamespace).isSome ↔
      ∃ pi, lookupKey gc.participants participantGid = some pi ∧
        ∃ ni ∈ pi.nodeEntitiesInfoSeq,
          ni.nodeName = nodeName ∧ ni.nodeNamespace = nodeNamespace) ∧
    ((gc.associate_reader entityGid participantGid nodeName nodeNamespace).isSome ↔
      ∃ pi, lookupKey gc.participants participantGid = some pi ∧
        ∃ ni ∈ pi.nodeEntitiesInfoSeq,
          ni.nodeName = nodeName ∧ ni.nodeNamespace = nodeNamespace) ∧
    ((gc.dissociate_reader entityGid participantGid nodeName nodeNamespace).isSome ↔
      ∃ pi, lookupKey gc.participants participantGid = some pi ∧
        ∃ ni ∈ pi.nodeEntitiesInfoSeq,
          ni.nodeName = nodeName ∧ ni.nodeNamespace = nodeNamespace) ∧
    (∀ r, gc.add_node participantGid nodeName nodeNamespace = some r →
      ∀ q, (lookupKey r.1.participants q).isSome = (lookupKey gc.participants q).isSome) ∧
    (∀ r, gc.remove_node participantGid nodeName nodeNamespace = some r →
      ∀ q, (lookupKey r.1.participants q).isSome = (lookupKey gc.participants q).isSome) ∧
    (∀ r, gc.associate_writer entityGid participantGid nodeName nodeNamespace = some r →
      ∀ q, (lookupKey r.1.participants q).isSome = (lookupKey gc.participants q).isSome) ∧
    (∀ r, gc.dissociate_writer entityGid participantGid nodeName nodeNamespace = some r →
      ∀ q, (lookupKey r.1.participants q).isSome = (lookupKey gc.participants q).isSome) ∧
    (∀ r, gc.associate_reader entityGid participantGid nodeName nodeNamespace = some r →
      ∀ q, (lookupKey r.1.participants q).isSome = (lookupKey gc.participants q).isSome) ∧
    (∀ r, gc.dissociate_reader entityGid participantGid nodeName nodeNamespace = some r →
      ∀ q, (lookupKey r.1.participants q).isSome = (lookupKey gc.participants q).isSome) ∧
    ((gc.add_writer gid topicName typeName typeHash participantGid qos).1.participants =
      gc.participants) ∧
    ((gc.add_reader gid topicName typeName typeHash participantGid qos).1.participants =
      gc.participants) ∧
    ((gc.remove_writer gid).1.participants = gc.participants) ∧
    ((gc.remove_reader gid).1.participants = gc.participants) ∧
    ((lookupKey (gc.update_participant_entities msg).participants msg.gid).isSome = true) ∧
    ((lookupKey (gc.add_participant participantGid enclave).participants
      participantGid).isSome = true) := by
  refine ⟨?_, ?_, ?_, ?_, ?_, ?_, ?_, ?_, ?_, ?_, ?_, ?_, ?_, ?_, ?_, ?_, ?_, ?_⟩
  · unfold GraphCache.add_node
    cases h : lookupKey gc.participants participantGid <;> simp [h]
  · unfold GraphCache.remove_node
    cases h : lookupKey gc.participants participantGid with
    | none => simp [h]
    | some pi =>
      cases hf : pi.nodeEntitiesInfoSeq.find? (nodeMatches nodeName nodeNamespace) with
      | none =>
        have hno : ∀ ni ∈ pi.nodeEntitiesInfoSeq,
            ¬ (ni.nodeName = nodeName ∧ ni.nodeNamespace = nodeNamespace) := by
          intro ni hni
          have hd := List.find?_eq_none.mp hf ni hni
          simpa [nodeMatches] using hd
        simp only [h, hf, Option.isSome_none, Bool.false_eq_true, false_iff, not_exists,
          Option.some.injEq]
        rintro pi' ⟨rfl, ni, hni, hn, hns⟩
        exact hno ni hni ⟨hn, hns⟩
      | some ni =>
        have hmem := List.mem_of_find?_eq_some hf
        have hp := List.find?_some hf
        simp only [nodeMatches, decide_eq_true_eq] at hp
        simp only [h, hf, Option.isSome_some, true_iff, Option.some.injEq]
        exact ⟨pi, rfl, ni, hmem, hp.1, hp.2⟩
  · unfold GraphCache.associate_writer
    rw [← modifyNodeInfo_isSome participantGid nodeName nodeNamespace
      (fun info => { info with writerGidSeq := info.writerGidSeq ++ [entityGid] })
      gc.participants]
    cases h : modifyNodeInfo participantGid nodeName nodeNamespace
        (fun info => { info with writerGidSeq := info.writerGidSeq ++ [entityGid] })
        gc.participants with
    | none => simp
    | some r => cases r; simp
  · unfold GraphCache.dissociate_writer
    rw [← modifyNodeInfo_isSome participantGid nodeName nodeNamespace
      (fun info => { info with
        writerGidSeq := info.writerGidSeq.eraseP (fun g => decide (g = entityGid)) })
      gc.participants]
    cases h : modifyNodeInfo participantGid nodeName nodeNamespace
        (fun info => { info with
          writerGidSeq := info.writerGidSeq.eraseP (fun g => decide (g = entityGid)) })
        gc.participants with
    | none => simp
    | some r => cases r; simp
  · unfold GraphCache.associate_reader
    rw [← modifyNodeInfo_isSome participantGid nodeName nodeNamespace
      (fun info => { info with readerGidSeq := info.readerGidSeq ++ [entityGid] })
      gc.participants]
    cases h : modifyNodeInfo participantGid nodeName nodeNamespace
        (fun info => { info with readerGidSeq := info.readerGidSeq ++ [entityGid] })
        gc.participants with
    | none => simp
    | some r => cases r; simp
  · unfold GraphCache.dissociate_reader
    rw [← modifyNodeInfo_isSome participantGid nodeName nodeNamespace
      (fun info => { info with
        readerGidSeq := info.readerGidSeq.eraseP (fun g => decide (g = entityGid)) })
      gc.participants]
    cases h : modifyNodeInfo participantGid nodeName nodeNamespace
        (fun info => { info with
          readerGidSeq := info.readerGidSeq.eraseP (fun g => decide (g = entityGid)) })
        gc.participants with
    | none => simp
    | some r => cases r; simp
  · intro r hr
    unfold GraphCache.add_node at hr
    split at hr
    · exact absurd hr (by simp)
    · obtain rfl := (Option.some.injEq ..).mp hr
      intro q
      simp [lookupKey_setKey_isSome]
  · intro r hr
    unfold GraphCache.remove_node at hr
    split at hr
    · exact absurd hr (by simp)
    · split at hr
      · exact absurd hr (by simp)
      · obtain rfl := (Option.some.injEq ..).mp hr
        intro q
        simp [lookupKey_setKey_isSome]
  · intro r hr
    unfold GraphCache.associate_writer at hr
    split at hr
    · exact absurd hr (by simp)
    · obtain rfl := (Option.some.injEq ..).mp hr
      rename_i pm2 m hm
      intro q
      simpa using modifyNodeInfo_preserves_keys _ _ _ _ _ _ _ hm q
  · intro r hr
    unfold GraphCache.dissociate_writer at hr
    split at hr
    · exact absurd hr (by simp)
    · obtain rfl := (Option.some.injEq ..).mp hr
      rename_i pm2 m hm
      intro q
      simpa using modifyNodeInfo_preserves_keys _ _ _ _ _ _ _ hm q
  · intro r hr
    unfold GraphCache.associate_reader at hr
    split at hr
    · exact absurd hr (by simp)
    · obtain rfl := (Option.some.injEq ..).mp hr
      rename_i pm2 m hm
      intro q
      simpa using modifyNodeInfo_preserves_keys _ _ _ _ _ _ _ hm q
  · intro r hr
    unfold GraphCache.dissociate_reader at hr
    split at hr
    · exact absurd hr (by simp)
    · obtain rfl := (Option.some.injEq ..).mp hr
      rename_i pm2 m hm
      intro q
      simpa using modifyNodeInfo_preserves_keys _ _ _ _ _ _ _ hm q
  · unfold GraphCache.add_writer
    cases h : lookupKey gc.dataWriters gid <;> simp [h]
  · unfold GraphCache.add_reader
    cases h : lookupKey gc.dataReaders gid <;> simp [h]
  · unfold GraphCache.remove_writer
    simp
  · unfold GraphCache.remove_reader
    simp
  · rw [update_participant_entities_lookup]
    rfl
  · exact add_participant_lookup_isSome gc participantGid enclave

/-- Witness for C10 at a concrete input: on `gcNode`, `add_node` for the
existing participant `[1]` succeeds (both sides of the precondition
equivalence are true), and the successful call preserves the absence of the
unrelated participant key `[7]`. -/
theorem local_node_plane_preconditions_witness :
    ((gcNode.add_node [1] "n2" "ns2").isSome ↔
      (lookupKey gcNode.participants [1]).isSome) ∧
    (gcNode.add_node [1] "n2" "ns2").map
        (fun r => (lookupKey r.1.participants [7]).isSome) =
      some (lookupKey gcNode.participants [7]).isSome := by
  have h := local_node_plane_preconditions gcNode [1] "n2" "ns2" [9] ⟨[8], []⟩ "e3" [6]
    "t" "ty" zeroTypeHash profileBase
  refine ⟨h.1, ?_⟩
  cases ha : gcNode.add_node [1] "n2" "ns2" with
  | none => exact absurd ha (by decide)
  | some r =>
    have hc := h.2.2.2.2.2.2.1 r ha [7]
    simp [hc]

theorem getEntitiesInfo_resolution (entities : EntityGidToInfo) (pm : ParticipantToNodesMap)
    (topicName : String) (demangleType : String → String) (isReader : Bool)
    (ep : TopicEndpointInfo)
    (h : ep ∈ getEntitiesInfoByTopic entities pm topicName demangleType isReader) :
    ∃ gid info, (gid, info) ∈ entities ∧ info.topicName = topicName ∧ ep.gid = gid ∧
      (lookupKey pm info.participantGid = none →
        ep.nodeName = "_CREATED_BY_BARE_DDS_APP_" ∧
        ep.nodeNamespace = "_CREATED_BY_BARE_DDS_APP_") ∧
      (∀ pi, lookupKey pm info.participantGid = some pi →
        ((∃ ni ∈ pi.nodeEntitiesInfoSeq,
            gid ∈ (if isReader then ni.readerGidSeq else ni.writerGidSeq)) →
          ∃ ni ∈ pi.nodeEntitiesInfoSeq,
            gid ∈ (if isReader then ni.readerGidSeq else ni.writerGidSeq) ∧
            ep.nodeName = ni.nodeName ∧ ep.nodeNamespace = ni.nodeNamespace) ∧
        ((∀ ni ∈ pi.nodeEntitiesInfoSeq,
            gid ∉ (if isReader then ni.readerGidSeq else ni.writerGidSeq)) →
          ep.nodeName = "_NODE_NAME_UNKNOWN_" ∧
          ep.nodeNamespace = "_NODE_NAMESPACE_UNKNOWN_")) := by
  unfold getEntitiesInfoByTopic at h
  rw [List.mem_map] at h
  obtain ⟨kv, hkv, rfl⟩ := h
  rw [List.mem_filter, decide_eq_true_eq] at hkv
  obtain ⟨hmem, htop⟩ := hkv
  refine ⟨kv.1, kv.2, by simpa using hmem, htop, rfl, ?_, ?_⟩
  · intro hnone
    simp [findNameAndNamespaceFromEntityGid, hnone]
  · intro pi hpi
    constructor
    · intro hex
      cases hf : pi.nodeEntitiesInfoSeq.find? (fun ni =>
          decide (kv.1 ∈ (if isReader then ni.readerGidSeq else ni.writerGidSeq))) with
      | none =>
        exfalso
        obtain ⟨ni, hni, hgid⟩ := hex
        have hd := List.find?_eq_none.mp hf ni hni
        simp only [decide_eq_true_eq] at hd
        exact hd hgid
      | some ni =>
        have hmem2 := List.mem_of_find?_eq_some hf
        have hp := List.find?_some hf
        rw [decide_eq_true_eq] at hp
        refine ⟨ni, hmem2, hp, ?_, ?_⟩ <;>
          simp [findNameAndNamespaceFromEntityGid, hpi, hf]
    · intro hnone
      have hf : pi.nodeEntitiesInfoSeq.find? (fun ni =>
          decide (kv.1 ∈ (if isReader then ni.readerGidSeq else ni.writerGidSeq))) = none := by
        rw [List.find?_eq_none]
        intro ni hni
        simp [hnone ni hni]
      simp [findNameAndNamespaceFromEntityGid, hpi, hf]

/-- Claim C6: every endpoint returned by `get_writers_info_by_topic`
(respectively `get_readers_info_by_topic`) corresponds to a stored entity of
that topic, and its node name and namespace are determined by the
three-valued reverse lookup: if the endpoint's gid is listed in some node of
its participant, that node's name and namespace are used; if the participant
exists in the cache but no node claims the gid, the
`_NODE_NAME_UNKNOWN_` / `_NODE_NAMESPACE_UNKNOWN_` placeholders are used; if
the participant gid is not in the participants map at all,
`_CREATED_BY_BARE_DDS_APP_` is used for both fields. -/
theorem get_entities_info_by_topic_node_resolution (gc : GraphCache)
    (topicName : String) (demangleType : String → String) :
    (∀ ep ∈ gc.get_writers_info_by_topic topicName demangleType,
      ∃ gid info, (gid, info) ∈ gc.dataWriters ∧ info.topicName = topicName ∧
        ep.gid = gid ∧
        (lookupKey gc.participants info.participantGid = none →
          ep.nodeName = "_CREATED_BY_BARE_DDS_APP_" ∧
          ep.nodeNamespace = "_CREATED_BY_BARE_DDS_APP_") ∧
        (∀ pi, lookupKey gc.participants info.participantGid = some pi →
          ((∃ ni ∈ pi.nodeEntitiesInfoSeq, gid ∈ ni.writerGidSeq) →
            ∃ ni ∈ pi.nodeEntitiesInfoSeq, gid ∈ ni.writerGidSeq ∧
              ep.nodeName = ni.nodeName ∧ ep.nodeNamespace = ni.nodeNamespace) ∧
          ((∀ ni ∈ pi.nodeEntitiesInfoSeq, gid ∉ ni.writerGidSeq) →
            ep.nodeName = "_NODE_NAME_UNKNOWN_" ∧
            ep.nodeNamespace = "_NODE_NAMESPACE_UNKNOWN_"))) ∧
    (∀ ep ∈ gc.get_readers_info_by_topic topicName demangleType,
      ∃ gid info, (gid, info) ∈ gc.dataReaders ∧ info.topicName = topicName ∧
        ep.gid = gid ∧
        (lookupKey gc.participants info.participantGid = none →
          ep.nodeName = "_CREATED_BY_BARE_DDS_APP_" ∧
          ep.nodeNamespace = "_CREATED_BY_BARE_DDS_APP_") ∧
        (∀ pi, lookupKey gc.participants info.participantGid = some pi →
          ((∃ ni ∈ pi.nodeEntitiesInfoSeq, gid ∈ ni.readerGidSeq) →
            ∃ ni ∈ pi.nodeEntitiesInfoSeq, gid ∈ ni.readerGidSeq ∧
              ep.nodeName = ni.nodeName ∧ ep.nodeNamespace = ni.nodeNamespace) ∧
          ((∀ ni ∈ pi.nodeEntitiesInfoSeq, gid ∉ ni.readerGidSeq) →
            ep.nodeName = "_NODE_NAME_UNKNOWN_" ∧
            ep.nodeNamespace = "_NODE_NAMESPACE_UNKNOWN_"))) := by
  constructor
  · intro ep h
    have hres := getEntitiesInfo_resolution gc.dataWriters gc.participants topicName
      demangleType false ep h
    simpa using hres
  · intro ep h
    have hres := getEntitiesInfo_resolution gc.dataReaders gc.participants topicName
      demangleType true ep h
    simpa using hres

/-- Witness for C6 at a concrete input: the endpoint entry for writer `[2]`
of topic `"t"` on `gcNode` is in the query result, and the resolution
conclusion holds for it. -/
theorem get_entities_info_by_topic_node_resolution_witness :
    ∃ gid info, (gid, info) ∈ gcNode.dataWriters ∧ info.topicName = "t" ∧
      epWriterExample.gid = gid ∧
      (lookupKey gcNode.participants info.participantGid = none →
        epWriterExample.nodeName = "_CREATED_BY_BARE_DDS_APP_" ∧
        epWriterExample.nodeNamespace = "_CREATED_BY_BARE_DDS_APP_") ∧
      (∀ pi, lookupKey gcNode.participants info.participantGid = some pi →
        ((∃ ni ∈ pi.nodeEntitiesInfoSeq, gid ∈ ni.writerGidSeq) →
          ∃ ni ∈ pi.nodeEntitiesInfoSeq, gid ∈ ni.writerGidSeq ∧
            epWriterExample.nodeName = ni.nodeName ∧
            epWriterExample.nodeNamespace = ni.nodeNamespace) ∧
        ((∀ ni ∈ pi.nodeEntitiesInfoSeq, gid ∉ ni.writerGidSeq) →
          epWriterExample.nodeName = "_NODE_NAME_UNKNOWN_" ∧
          epWriterExample.nodeNamespace = "_NODE_NAMESPACE_UNKNOWN_")) :=
  (get_entities_info_by_topic_node_resolution gcNode "t" (fun s => s)).1
    epWriterExample (by decide)

theorem findNode_eq_none_iff (pm : ParticipantToNodesMap) (nodeName nodeNamespace : String) :
    findNode pm nodeName nodeNamespace = none ↔
      ∀ kv ∈ pm, ∀ ni ∈ kv.2.nodeEntitiesInfoSeq,
        ¬ (ni.nodeName = nodeName ∧ ni.nodeNamespace = nodeNamespace) := by
  induction pm with
  | nil => simp [findNode]
  | cons kv rest ih =>
    unfold findNode
    cases hf : kv.2.nodeEntitiesInfoSeq.find? (nodeMatches nodeName nodeNamespace) with
    | some ni =>
      have hmem := List.mem_of_find?_eq_some hf
      have hp := List.find?_some hf
      simp only [nodeMatches, decide_eq_true_eq] at hp
      refine iff_of_false (by simp) ?_
      intro hall
      exact hall kv (List.mem_cons_self kv rest) ni hmem hp
    | none =>
      have hkv : ∀ ni ∈ kv.2.nodeEntitiesInfoSeq,
          ¬ (ni.nodeName = nodeName ∧ ni.nodeNamespace = nodeNamespace) := by
        intro ni hni
        have hd := List.find?_eq_none.mp hf ni hni
        simpa [nodeMatches] using hd
      rw [ih]
      constructor
      · intro hrest kv2 hkv2
        rcases List.mem_cons.mp hkv2 with rfl | hkv2'
        · exact hkv
        · exact hrest kv2 hkv2'
      · intro hall kv2 hkv2
        exact hall kv2 (List.mem_cons_of_mem _ hkv2)

theorem namesAndTypes_fold_mem (em : EntityGidToInfo) (dmT dmTy : String → String)
    (gids : List Gid) (acc : Finset (String × String)) (pr : String × String) :
    (pr ∈ gids.foldl (fun topics gid =>
      match lookupKey em gid with
      | none => topics
      | some info =>
        let demangledTopicName := dmT info.topicName
        if demangledTopicName = "" then topics
        else insert (demangledTopicName, dmTy info.topicType) topics) acc) ↔
      (pr ∈ acc ∨ ∃ gid ∈ gids, ∃ info, lookupKey em gid = some info ∧
        dmT info.topicName ≠ "" ∧ pr = (dmT info.topicName, dmTy info.topicType)) := by
  induction gids generalizing acc with
  | nil => simp
  | cons g rest ih =>
    rw [List.foldl_cons, ih]
    cases hl : lookupKey em g with
    | none => simp [hl]
    | some info =>
      by_cases hd : dmT info.topicName = ""
      · simp [hl, hd]
      · simp only [hl]
        rw [if_neg hd]
        simp only [Finset.mem_insert, List.mem_cons]
        constructor
        · rintro ((hpr | hacc) | hex)
          · exact Or.inr ⟨g, Or.inl rfl, info, hl, hd, hpr⟩
          · exact Or.inl hacc
          · obtain ⟨gid, hg, info', hinfo', hne', hpr'⟩ := hex
            exact Or.inr ⟨gid, Or.inr hg, info', hinfo', hne', hpr'⟩
        · rintro (hacc | ⟨gid, hg | hg, info', hinfo', hne', hpr'⟩)
          · exact Or.inl (Or.inr hacc)
          · subst hg
            rw [hl] at hinfo'
            obtain rfl := (Option.some.injEq ..).mp hinfo'
            exact Or.inl (Or.inl hpr')
          · exact Or.inr ⟨gid, hg, info', hinfo', hne', hpr'⟩

theorem namesAndTypesFromGids_mem (em : EntityGidToInfo) (gids : List Gid)
    (dmT dmTy : String → String) (pr : String × String) :
    pr ∈ namesAndTypesFromGids em gids dmT dmTy ↔
      ∃ gid ∈ gids, ∃ info, lookupKey em gid = some info ∧
        dmT info.topicName ≠ "" ∧ pr = (dmT info.topicName, dmTy info.topicType) := by
  unfold namesAndTypesFromGids
  rw [namesAndTypes_fold_mem]
  simp

/-- Claim C7: `get_writer_names_and_types_by_node` and
`get_reader_names_and_types_by_node`, called with a `(node_name, namespace)`
pair that matches no node in any participant, return
`RMW_RET_NODE_NAME_NON_EXISTENT` and produce no output (the caller's
zero-initialized structure stays untouched, modelled by the error carrying
nothing); when the node is found, the result is built only from that node's
writer-gid (respectively reader-gid) list: every produced (topic, type) pair
arises from a gid of that list resolved through the corresponding entity
map. -/
theorem get_names_and_types_by_node_spec (gc : GraphCache)
    (nodeName nodeNamespace : String) (demangleTopic demangleType : String → String) :
    ((∀ kv ∈ gc.participants, ∀ ni ∈ kv.2.nodeEntitiesInfoSeq,
        ¬ (ni.nodeName = nodeName ∧ ni.nodeNamespace = nodeNamespace)) →
      gc.get_writer_names_and_types_by_node nodeName nodeNamespace
          demangleTopic demangleType = .error .nodeNameNonExistent ∧
      gc.get_reader_names_and_types_by_node nodeName nodeNamespace
          demangleTopic demangleType = .error .nodeNameNonExistent) ∧
    (∀ ni, findNode gc.participants nodeName nodeNamespace = some ni →
      gc.get_writer_names_and_types_by_node nodeName nodeNamespace
          demangleTopic demangleType =
        .ok (namesAndTypesFromGids gc.dataWriters ni.writerGidSeq
          demangleTopic demangleType) ∧
      gc.get_reader_names_and_types_by_node nodeName nodeNamespace
          demangleTopic demangleType =
        .ok (namesAndTypesFromGids gc.dataReaders ni.readerGidSeq
          demangleTopic demangleType) ∧
      (∀ pr ∈ namesAndTypesFromGids gc.dataWriters ni.writerGidSeq
          demangleTopic demangleType,
        ∃ gid ∈ ni.writerGidSeq, ∃ info, lookupKey gc.dataWriters gid = some info ∧
          demangleTopic info.topicName ≠ "" ∧
          pr = (demangleTopic info.topicName, demangleType info.topicType)) ∧
      (∀ pr ∈ namesAndTypesFromGids gc.dataReaders ni.readerGidSeq
          demangleTopic demangleType,
        ∃ gid ∈ ni.readerGidSeq, ∃ info, lookupKey gc.dataReaders gid = some info ∧
          demangleTopic info.topicName ≠ "" ∧
          pr = (demangleTopic info.topicName, demangleType info.topicType))) := by
  constructor
  · intro hnone
    have hfn : findNode gc.participants nodeName nodeNamespace = none :=
      (findNode_eq_none_iff gc.participants nodeName nodeNamespace).mpr hnone
    constructor
    · unfold GraphCache.get_writer_names_and_types_by_node getNamesAndTypesByNode
      simp [hfn]
    · unfold GraphCache.get_reader_names_and_types_by_node getNamesAndTypesByNode
      simp [hfn]
  · intro ni hni
    refine ⟨?_, ?_, ?_, ?_⟩
    · unfold GraphCache.get_writer_names_and_types_by_node getNamesAndTypesByNode
      simp [hni]
    · unfold GraphCache.get_reader_names_and_types_by_node getNamesAndTypesByNode
      simp [hni]
    · intro pr hpr
      exact (namesAndTypesFromGids_mem gc.dataWriters ni.writerGidSeq
        demangleTopic demangleType pr).mp hpr
    · intro pr hpr
      exact (namesAndTypesFromGids_mem gc.dataReaders ni.readerGidSeq
        demangleTopic demangleType pr).mp hpr

/-- Witness for C7 at concrete inputs: on `gcNode`, the unknown node
`("zz", "zz")` yields `NODE_NAME_NON_EXISTENT` for both by-node queries, and
for the existing node `("n", "ns")` the writer query returns the result
built from that node's writer-gid list `[[2]]`. -/
theorem get_names_and_types_by_node_spec_witness :
    (gcNode.get_writer_names_and_types_by_node "zz" "zz" (fun s => s) (fun s => s) =
        .error .nodeNameNonExistent ∧
      gcNode.get_reader_names_and_types_by_node "zz" "zz" (fun s => s) (fun s => s) =
        .error .nodeNameNonExistent) ∧
    gcNode.get_writer_names_and_types_by_node "n" "ns" (fun s => s) (fun s => s) =
      .ok (namesAndTypesFromGids gcNode.dataWriters
        (NodeEntitiesInfo.mk "ns" "n" [[4]] [[2]]).writerGidSeq
        (fun s => s) (fun s => s)) := by
  constructor
  · exact (get_names_and_types_by_node_spec gcNode "zz" "zz"
      (fun s => s) (fun s => s)).1 (by decide)
  · exact ((get_names_and_types_by_node_spec gcNode "n" "ns"
      (fun s => s) (fun s => s)).2 ⟨"ns", "n", [[4]], [[2]]⟩ (by decide)).1

set_option maxRecDepth 10000 in
theorem hexDigit_roundTrip :
    ∀ b : Fin 256, hexDigitVal (toHexDigit (b.val / 16)) = some (b.val / 16) ∧
      hexDigitVal (toHexDigit (b.val % 16)) = some (b.val % 16) := by decide

set_option maxRecDepth 10000 in
theorem decimal_roundTrip :
    ∀ v : Fin 256, decodeDecimal (padTwo (Nat.toDigits 10 v.val)) = some v.val := by decide

set_option maxRecDepth 10000 in
theorem padTwo_digits_are_digits :
    ∀ v : Fin 256, ∀ c ∈ padTwo (Nat.toDigits 10 v.val), isDecDigit c = true := by decide

set_option maxRecDepth 10000 in
theorem hexByte_no_semicolon :
    ∀ b : Fin 256, ∀ c ∈ encodeHexByte b.val, c ≠ ';' := by decide

theorem typehashKeyChars_no_semicolon : ∀ c ∈ typehashKeyChars, c ≠ ';' := by decide

theorem isDecDigit_ne_semicolon {c : Char} (hc : isDecDigit c = true) : c ≠ ';' := by
  intro heq
  rw [heq] at hc
  exact absurd hc (by decide)

theorem padTwo_ne_nil (cs : List Char) : padTwo cs ≠ [] := by
  unfold padTwo
  split
  · simp
  · rename_i hlen2
    intro hc
    rw [hc] at hlen2
    simp at hlen2

theorem decodeHexBytes_encode (bs : List Nat) (hb : ∀ b ∈ bs, b < 256) :
    decodeHexBytes ((bs.map encodeHexByte).flatten) = some bs := by
  induction bs with
  | nil => rfl
  | cons b rest ih =>
    have hb0 : b < 256 := hb b (List.mem_cons_self ..)
    have hrt := hexDigit_roundTrip ⟨b, hb0⟩
    have hbm : b / 16 * 16 + b % 16 = b := by omega
    show decodeHexBytes (toHexDigit (b / 16) :: toHexDigit (b % 16) ::
      (rest.map encodeHexByte).flatten) = some (b :: rest)
    unfold decodeHexBytes
    rw [hrt.1, hrt.2, ih (fun x hx => hb x (List.mem_cons_of_mem _ hx))]
    simp [hbm]

theorem takeWhile_append_stop (p : Char → Bool) (ds : List Char) (x : Char) (r : List Char)
    (hds : ∀ c ∈ ds, p c = true) (hx : p x = false) :
    (ds ++ x :: r).takeWhile p = ds := by
  induction ds with
  | nil => simp [List.takeWhile_cons, hx]
  | cons c cs ih =>
    have hc := hds c (List.mem_cons_self ..)
    simp [List.takeWhile_cons, hc,
      ih (fun d hd => hds d (List.mem_cons_of_mem _ hd))]

theorem dropWhile_append_stop (p : Char → Bool) (ds : List Char) (x : Char) (r : List Char)
    (hds : ∀ c ∈ ds, p c = true) (hx : p x = false) :
    (ds ++ x :: r).dropWhile p = x :: r := by
  induction ds with
  | nil => simp [List.dropWhile_cons, hx]
  | cons c cs ih =>
    have hc := hds c (List.mem_cons_self ..)
    simp [List.dropWhile_cons, hc,
      ih (fun d hd => hds d (List.mem_cons_of_mem _ hd))]

theorem splitOnSemicolon_append (xs ys : List Char) (hxs : ∀ c ∈ xs, c ≠ ';') :
    splitOnSemicolon (xs ++ ';' :: ys) = xs :: splitOnSemicolon ys := by
  induction xs with
  | nil =>
    show splitOnSemicolon (';' :: ys) = [] :: splitOnSemicolon ys
    simp [splitOnSemicolon]
  | cons c cs ih =>
    have hc : c ≠ ';' := hxs c (List.mem_cons_self ..)
    show splitOnSemicolon (c :: (cs ++ ';' :: ys)) = (c :: cs) :: splitOnSemicolon ys
    simp only [splitOnSemicolon]
    rw [if_neg hc, ih (fun d hd => hxs d (List.mem_cons_of_mem _ hd))]

theorem splitAtEq_typehash (s : List Char) :
    splitAtEq (typehashKeyChars ++ s) =
      some (['t', 'y', 'p', 'e', 'h', 'a', 's', 'h'], s) := rfl

theorem stringify_no_semicolon (h : TypeHash) (hv2 : h.version < 256)
    (hb : ∀ b ∈ h.value, b < 256) :
    ∀ c ∈ stringifyTypeHashChars h, c ≠ ';' := by
  intro c hc
  unfold stringifyTypeHashChars at hc
  simp only [List.mem_cons, List.mem_append] at hc
  rcases hc with rfl | rfl | rfl | rfl | hdig | hc
  · decide
  · decide
  · decide
  · decide
  · exact isDecDigit_ne_semicolon (padTwo_digits_are_digits ⟨h.version, hv2⟩ c hdig)
  · rcases hc with rfl | hflat
    · decide
    · obtain ⟨l, hl, hcl⟩ := List.mem_flatten.mp hflat
      obtain ⟨b, hbmem, rfl⟩ := List.mem_map.mp hl
      exact hexByte_no_semicolon ⟨b, hb b hbmem⟩ c hcl

theorem encode_prefix_no_semicolon (h : TypeHash) (hv2 : h.version < 256)
    (hb : ∀ b ∈ h.value, b < 256) :
    ∀ c ∈ typehashKeyChars ++ stringifyTypeHashChars h, c ≠ ';' := by
  intro c hc
  rcases List.mem_append.mp hc with hk | hs
  · exact typehashKeyChars_no_semicolon c hk
  · exact stringify_no_semicolon h hv2 hb c hs

theorem parseTypeHashChars_stringify (h : TypeHash) (hv2 : h.version < 256)
    (hlen : h.value.length = 32) (hb : ∀ b ∈ h.value, b < 256) :
    parseTypeHashChars (stringifyTypeHashChars h) = some h := by
  have hdig := padTwo_digits_are_digits ⟨h.version, hv2⟩
  have htake : (padTwo (Nat.toDigits 10 h.version) ++ '_' ::
      (h.value.map encodeHexByte).flatten).takeWhile isDecDigit =
      padTwo (Nat.toDigits 10 h.version) :=
    takeWhile_append_stop _ _ _ _ hdig (by decide)
  have hdrop : (padTwo (Nat.toDigits 10 h.version) ++ '_' ::
      (h.value.map encodeHexByte).flatten).dropWhile isDecDigit =
      '_' :: (h.value.map encodeHexByte).flatten :=
    dropWhile_append_stop _ _ _ _ hdig (by decide)
  show parseTypeHashChars ('R' :: 'I' :: 'H' :: 'S' ::
      (padTwo (Nat.toDigits 10 h.version) ++ '_' :: (h.value.map encodeHexByte).flatten)) = some h
  unfold parseTypeHashChars
  simp only [List.take_succ_cons, List.take_zero, List.drop_succ_cons, List.drop_zero, if_true]
  simp only [htake, hdrop, if_true]
  rw [decimal_roundTrip ⟨h.version, hv2⟩, decodeHexBytes_encode h.value hb]
  simp [hlen]
  exact padTwo_ne_nil _

/-- Claim C9: the type-hash user-data codec round-trips — for every type
hash with a set version (a one-byte version tag and a 32-byte value),
parsing the user data produced by `encode_type_hash_for_user_data_qos`
yields the same hash with OK status; encoding a hash with unset version
yields the empty string; and parsing user data containing no `typehash` key
yields the zero-initialized hash with OK status. -/
theorem type_hash_codec_spec (h : TypeHash) (hv : h.version ≠ 0) (hv2 : h.version < 256)
    (hlen : h.value.length = 32) (hb : ∀ b ∈ h.value, b < 256) :
    parseTypeHashFromUserData (encodeTypeHashChars h) = .ok h ∧
    (∀ h2 : TypeHash, h2.version = 0 → encodeTypeHashForUserDataQos h2 = "") ∧
    (∀ userData : List Char, lookupValue (parseKeyValue userData) "typehash" = none →
      parseTypeHashFromUserData userData = .ok zeroTypeHash) := by
  refine ⟨?_, ?_, ?_⟩
  · have henc : encodeTypeHashChars h =
        (typehashKeyChars ++ stringifyTypeHashChars h) ++ ';' :: [] := by
      unfold encodeTypeHashChars
      rw [if_neg hv]
    have hsplit : splitOnSemicolon ((typehashKeyChars ++ stringifyTypeHashChars h) ++ ';' :: []) =
        (typehashKeyChars ++ stringifyTypeHashChars h) :: splitOnSemicolon [] :=
      splitOnSemicolon_append _ _ (encode_prefix_no_semicolon h hv2 hb)
    have hkv : parseKeyValue (encodeTypeHashChars h) =
        [(⟨['t', 'y', 'p', 'e', 'h', 'a', 's', 'h']⟩, stringifyTypeHashChars h)] := by
      unfold parseKeyValue
      rw [henc, hsplit]
      show ((typehashKeyChars ++ stringifyTypeHashChars h) :: [[]]).filterMap _ = _
      simp [splitAtEq_typehash, splitAtEq]
    have hlook : lookupValue (parseKeyValue (encodeTypeHashChars h)) "typehash" =
        some (stringifyTypeHashChars h) := by
      rw [hkv]
      simp [lookupValue]
    unfold parseTypeHashFromUserData
    simp only [hlook, parseTypeHashChars_stringify h hv2 hlen hb]
  · intro h2 hv0
    unfold encodeTypeHashForUserDataQos encodeTypeHashChars
    rw [if_pos hv0]
  · intro userData hnone
    unfold parseTypeHashFromUserData
    rw [hnone]

/-- Witness for C9 at a concrete input: the example hash (version 1,
32-byte value) satisfies all the hypotheses and round-trips. -/
theorem type_hash_codec_spec_witness :
    parseTypeHashFromUserData (encodeTypeHashChars typeHashExample) = .ok typeHashExample :=
  (type_hash_codec_spec typeHashExample (by decide) (by decide) (by decide) (by decide)).1

end RmwDdsCommon
